import Mathlib

/-!
Verification of the BerryDB page pool (`src/page_pool.cc`) and the libc VFS
(`src/vfs/libc_vfs.cc`) against their natural-language specification.

The page pool is embedded shallowly: a pool state is a record holding the
frame array (a function from frame index to frame metadata), the free list,
the LRU list and the resident map (an association list from (store, page-id)
keys to frame indices).  The store and transaction collaborators are external
to the pool; their calls are recorded as events, and the outcomes of their
fallible operations (`ReadPage`, `WritePage`) are supplied as boolean oracle
parameters.  Page buffers carry no modelled contents: the pool logic never
inspects buffer bytes.

Frames are named by their creation index; `pageCount` is the number of frames
created so far, and C++ pointer identity of a `Page*` corresponds to index
equality.
-/

namespace BerryDB

/-- Status codes from `include/berrydb/status.h` that the modelled code
mentions. -/
inductive Status where
  | kSuccess
  | kIoError
  | kNotFound
  | kAlreadyLocked
  | kPoolFull
deriving DecidableEq, Repr

/-- `PagePool::PageFetchMode` from `page_pool.h`: whether `StorePage` must
load the on-disk bytes into the frame. -/
inductive PageFetchMode where
  | kFetchPageData
  | kIgnorePageData
deriving DecidableEq, Repr

/-- Calls the pool makes on its store/transaction collaborators, recorded in
order.  Stores are named by numeric identity. -/
inductive PoolEvent where
  | readPage (store pageId frameId : Nat)
  | writePage (store pageId frameId : Nat)
  | closeStore (store : Nat)
  | unassignPersistedPage (frameId : Nat)
  | unassignPage (frameId : Nat)
  | releaseFrame (frameId : Nat)
deriving DecidableEq, Repr

/-- Metadata of one page frame (class `Page` in `page.h`, observed through
`page_pool.cc` and `page_unittest.cc`).  The C++ frame stores a transaction
pointer plus a page id; the resident-map key is derived from them as
`(transaction->store(), page_id)`, so the assignment is modelled directly as
an optional (store, page-id) pair.  The buffer bytes are not modelled. -/
structure Page where
  pinCount : Nat
  dirty : Bool
  assignment : Option (Nat × Nat)
deriving DecidableEq, Repr

namespace Page

/-- Modelled from the spec: `Page::Create` (`page.h`, not under `src/`) makes
a zero-initialized frame that is born pinned and unassigned; `page_unittest.cc`
(`CreateRelease`, `Pinning`) confirms the single birth pin. -/
def create : Page := { pinCount := 1, dirty := false, assignment := none }

/-- Modelled from the spec: `Page::AddPin` (§4.1) increments the pin count. -/
def addPin (p : Page) : Page := { p with pinCount := p.pinCount + 1 }

/-- Modelled from the spec: `Page::RemovePin` (§4.1) decrements the pin
count; calling it at zero is a programming error, modelled by truncated
subtraction and excluded by step preconditions. -/
def removePin (p : Page) : Page := { p with pinCount := p.pinCount - 1 }

/-- Modelled from the spec: `Page::IsUnpinned` (§4.1) tests for a zero pin
count. -/
def isUnpinned (p : Page) : Bool := p.pinCount == 0

/-- Modelled from the spec: `Page::WillCacheStoreData` (§4.1) sets the
assignment; reached through `TransactionImpl::AssignPage`. -/
def willCacheStoreData (p : Page) (store pageId : Nat) : Page :=
  { p with assignment := some (store, pageId) }

/-- Modelled from the spec: `Page::DoesNotCacheStoreData` (§4.1) resets the
frame to unassigned and clears the dirty flag; reached through
`TransactionImpl::UnassignPage` / `UnassignPersistedPage`. -/
def doesNotCacheStoreData (p : Page) : Page :=
  { p with assignment := none, dirty := false }

/-- Modelled from the spec: `Page::MarkDirty` (§4.1) raises the dirty flag;
only the owning transaction calls it, on an assigned frame. -/
def markDirty (p : Page) : Page := { p with dirty := true }

end Page

/-! Association-list model of `std::unordered_map<(StoreImpl*, size_t), Page*>`
(`page_map_`).  The pool maintains distinct keys, so an association list with
key-unique entries is an exact model. -/

/-- Lookup of a resident-map key, mirroring `page_map_.find(key)`. -/
def lookupKey : List ((Nat × Nat) × Nat) → (Nat × Nat) → Option Nat
  | [], _ => none
  | e :: rest, k => if e.1 = k then some e.2 else lookupKey rest k

/-- Removal of a resident-map key, mirroring `page_map_.erase(key)`: the map
keeps its keys unique, so dropping every entry with the key removes exactly
the one entry `erase` removes. -/
def eraseKey (m : List ((Nat × Nat) × Nat)) (k : Nat × Nat) :
    List ((Nat × Nat) × Nat) :=
  m.filter (fun e => e.1 != k)

/-- Insert-or-assign of a resident-map entry, mirroring
`page_map_[key] = page`. -/
def insertKey (m : List ((Nat × Nat) × Nat)) (k : Nat × Nat) (v : Nat) :
    List ((Nat × Nat) × Nat) :=
  (k, v) :: eraseKey m k

/-- State of a `PagePool` (`page_pool.h` / `page_pool.cc`): the per-frame
metadata for the `pageCount` frames created so far, the free list and LRU
list of frame indices (front of the list = front of the C++ `LinkedList`),
and the resident map. -/
structure PagePool where
  pageCapacity : Nat
  pageCount : Nat
  frames : Nat → Page
  freeList : List Nat
  lruList : List Nat
  pageMap : List ((Nat × Nat) × Nat)

namespace PagePool

/-- The frame named by an index. -/
def frame (pp : PagePool) (fid : Nat) : Page := pp.frames fid

/-- Replace the frame at one index by a function of its old value. -/
def setFrame (pp : PagePool) (fid : Nat) (f : Page → Page) : PagePool :=
  { pp with frames := fun i => if i = fid then f (pp.frames i) else pp.frames i }

/-- A freshly constructed pool (`PagePool::PagePool`): no frames, both lists
empty, empty resident map; growth is lazy. -/
def init (pageCapacity : Nat) : PagePool :=
  { pageCapacity := pageCapacity, pageCount := 0, frames := fun _ => Page.create,
    freeList := [], lruList := [], pageMap := [] }

/-- `PagePool::UnpinUnassignedPage`: remove a pin; if the frame became
unpinned, `free_list_.push_back(page)` appends it to the free list. -/
def unpinUnassignedPage (pp : PagePool) (fid : Nat) : PagePool :=
  let pp1 := pp.setFrame fid Page.removePin
  if (pp1.frame fid).isUnpinned then { pp1 with freeList := pp1.freeList ++ [fid] }
  else pp1

/-- `PagePool::UnassignPageFromStore`: erase the frame's (store, page-id) key
from the resident map; if the frame is dirty, call `store->WritePage`, then
`transaction->UnassignPersistedPage`, and `store->Close()` when the write
failed; otherwise call `transaction->UnassignPage`.  The transaction
collaborator's unassign calls reset the frame via
`Page::DoesNotCacheStoreData` (spec §4.5 step 5).  `writeOk` is the oracle
outcome of `WritePage`.  Called only on an assigned frame (DCHECK); the
unassigned branch is unreachable and returns the state unchanged. -/
def unassignPageFromStore (pp : PagePool) (fid : Nat) (writeOk : Bool) :
    PagePool × List PoolEvent :=
  match (pp.frame fid).assignment with
  | none => (pp, [])
  | some (store, pageId) =>
    let pp1 : PagePool := { pp with pageMap := eraseKey pp.pageMap (store, pageId) }
    if (pp1.frame fid).dirty then
      (pp1.setFrame fid Page.doesNotCacheStoreData,
        [PoolEvent.writePage store pageId fid, PoolEvent.unassignPersistedPage fid]
          ++ (if writeOk then [] else [PoolEvent.closeStore store]))
    else
      (pp1.setFrame fid Page.doesNotCacheStoreData, [PoolEvent.unassignPage fid])

/-- `PagePool::AllocPage`: pop the front of the free list if non-empty; else
grow while `page_count_ < page_capacity_` (the new frame is born pinned via
`Page::Create`); else evict the front of the LRU list (pin it, pop it,
`UnassignPageFromStore`); else return null. -/
def allocPage (pp : PagePool) (writeOk : Bool) :
    Option Nat × PagePool × List PoolEvent :=
  match pp.freeList with
  | fid :: rest =>
    (some fid, ({ pp with freeList := rest }).setFrame fid Page.addPin, [])
  | [] =>
    if pp.pageCount < pp.pageCapacity then
      (some pp.pageCount,
        ({ pp with pageCount := pp.pageCount + 1 }).setFrame pp.pageCount
          (fun _ => Page.create), [])
    else
      match pp.lruList with
      | fid :: rest =>
        let pp1 := ({ pp with lruList := rest }).setFrame fid Page.addPin
        let r := pp1.unassignPageFromStore fid writeOk
        (some fid, r.1, r.2)
      | [] => (none, pp, [])

/-- `PagePool::FetchStorePage`: with `kFetchPageData`, delegate to
`store->ReadPage` (oracle `readOk`, statuses `kSuccess`/`kIoError` per spec
§6); with `kIgnorePageData`, succeed without I/O (the debug fill pattern has
no modelled effect).  The frame is assigned when called (DCHECK); the
unassigned fetch branch is unreachable. -/
def fetchStorePage (pp : PagePool) (fid : Nat) (fetchMode : PageFetchMode)
    (readOk : Bool) : Status × List PoolEvent :=
  match fetchMode, (pp.frame fid).assignment with
  | PageFetchMode.kFetchPageData, some (store, pageId) =>
    (if readOk then Status.kSuccess else Status.kIoError,
      [PoolEvent.readPage store pageId fid])
  | PageFetchMode.kFetchPageData, none => (Status.kIoError, [])
  | PageFetchMode.kIgnorePageData, _ => (Status.kSuccess, [])

/-- `PagePool::AssignPageToStore`: bind the frame to the store's init
transaction (`transaction->AssignPage` sets the assignment), fetch the data,
and on success insert the resident-map entry; on fetch failure
`transaction->UnassignPage` resets the frame and the fetch status is
returned. -/
def assignPageToStore (pp : PagePool) (fid store pageId : Nat)
    (fetchMode : PageFetchMode) (readOk : Bool) :
    Status × PagePool × List PoolEvent :=
  let pp1 := pp.setFrame fid (fun f => f.willCacheStoreData store pageId)
  let r := pp1.fetchStorePage fid fetchMode readOk
  if r.1 = Status.kSuccess then
    (Status.kSuccess, { pp1 with pageMap := insertKey pp1.pageMap (store, pageId) fid },
      r.2)
  else
    (r.1, pp1.setFrame fid Page.doesNotCacheStoreData, r.2)

/-- `PagePool::PinStorePage`: if the frame is unpinned it sits in the LRU
list and is erased from it; then the pin is added. -/
def pinStorePage (pp : PagePool) (fid : Nat) : PagePool :=
  let pp1 := if (pp.frame fid).isUnpinned then { pp with lruList := pp.lruList.erase fid }
    else pp
  pp1.setFrame fid Page.addPin

/-- `PagePool::PinTransactionPages`: `PinStorePage` on each frame of an
externally maintained transaction page list, in order. -/
def pinTransactionPages (pp : PagePool) (fids : List Nat) : PagePool :=
  fids.foldl (fun acc fid => acc.pinStorePage fid) pp

/-- `PagePool::StorePage`: on a resident-map hit, re-pin and return the
mapped frame; on a miss, allocate a frame (possibly evicting), assign it to
(store, pageId), and on assignment failure undo via `UnpinUnassignedPage`.
Returns (status, returned frame if any, new state, collaborator events). -/
def storePage (pp : PagePool) (store pageId : Nat) (fetchMode : PageFetchMode)
    (readOk writeOk : Bool) : Status × Option Nat × PagePool × List PoolEvent :=
  match lookupKey pp.pageMap (store, pageId) with
  | some fid => (Status.kSuccess, some fid, pp.pinStorePage fid, [])
  | none =>
    match pp.allocPage writeOk with
    | (none, pp1, events) => (Status.kPoolFull, none, pp1, events)
    | (some fid, pp1, events) =>
      let r := pp1.assignPageToStore fid store pageId fetchMode readOk
      if r.1 = Status.kSuccess then
        (Status.kSuccess, some fid, r.2.1, events ++ r.2.2)
      else
        (r.1, none, r.2.1.unpinUnassignedPage fid, events ++ r.2.2)

/-- Modelled from the spec: `PagePool::UnpinStorePage` (declared in
`page_pool.h`, which is not under `src/`; spec §4.4): decrement the pin
count; if it reaches zero, append the frame to the LRU list tail. -/
def unpinStorePage (pp : PagePool) (fid : Nat) : PagePool :=
  let pp1 := pp.setFrame fid Page.removePin
  if (pp1.frame fid).isUnpinned then { pp1 with lruList := pp1.lruList ++ [fid] }
  else pp1

/-- `PagePool::~PagePool`: release every frame on the free list, then every
frame on the LRU list.  No other collaborator call is made; in particular no
`WritePage`. -/
def destroy (pp : PagePool) : List PoolEvent :=
  pp.freeList.map PoolEvent.releaseFrame ++ pp.lruList.map PoolEvent.releaseFrame

/-- `PagePool::pinned_pages()` is zero exactly when no frame holds a pin;
modelled as the sum of all pin counts. -/
def totalPinCount (pp : PagePool) : Nat :=
  ((List.range pp.pageCount).map fun fid => (pp.frames fid).pinCount).sum

/-- One public pool operation.  Each constructor carries the DCHECKed
preconditions of the corresponding entry point; violating them is a
programming error (spec §7), not a reachable behavior.  `allocPage` is
included because the pool hands raw frames to internal clients (spec
scenario 1), which makes `UnpinUnassignedPage` reachable; `markDirty` is the
owning transaction's dirty-flag write on a pinned assigned frame. -/
inductive Step : PagePool → PagePool → Prop where
  | storePage (pp : PagePool) (store pageId : Nat) (fetchMode : PageFetchMode)
      (readOk writeOk : Bool) :
      Step pp (pp.storePage store pageId fetchMode readOk writeOk).2.2.1
  | unpinStorePage (pp : PagePool) (fid : Nat) (hlt : fid < pp.pageCount)
      (hasg : (pp.frame fid).assignment ≠ none)
      (hpin : 0 < (pp.frame fid).pinCount) :
      Step pp (pp.unpinStorePage fid)
  | unpinUnassignedPage (pp : PagePool) (fid : Nat) (hlt : fid < pp.pageCount)
      (hasg : (pp.frame fid).assignment = none)
      (hpin : 0 < (pp.frame fid).pinCount) :
      Step pp (pp.unpinUnassignedPage fid)
  | pinTransactionPages (pp : PagePool) (fids : List Nat)
      (h : ∀ fid ∈ fids, fid < pp.pageCount ∧ (pp.frame fid).assignment ≠ none) :
      Step pp (pp.pinTransactionPages fids)
  | allocPage (pp : PagePool) (writeOk : Bool) :
      Step pp (pp.allocPage writeOk).2.1
  | markDirty (pp : PagePool) (fid : Nat) (hlt : fid < pp.pageCount)
      (hasg : (pp.frame fid).assignment ≠ none)
      (hpin : 0 < (pp.frame fid).pinCount) :
      Step pp (pp.setFrame fid Page.markDirty)

/-- Pool states reachable from a freshly constructed pool by public
operations. -/
inductive Reachable : PagePool → Prop where
  | init (pageCapacity : Nat) : Reachable (PagePool.init pageCapacity)
  | step {pp pp' : PagePool} : Reachable pp → Step pp pp' → Reachable pp'

end PagePool

/-- The pool representation invariant (spec §3): list membership is governed
by pin count and assignment, the lists are duplicate-free, the resident map
is key-unique and mirrors the assignments exactly, frame creation respects
the capacity, and unassigned frames are clean. -/
structure PoolInv (pp : PagePool) : Prop where
  capacity : pp.pageCount ≤ pp.pageCapacity
  free_lt : ∀ fid ∈ pp.freeList, fid < pp.pageCount
  lru_lt : ∀ fid ∈ pp.lruList, fid < pp.pageCount
  free_nodup : pp.freeList.Nodup
  lru_nodup : pp.lruList.Nodup
  free_iff : ∀ fid, fid < pp.pageCount →
    (fid ∈ pp.freeList ↔ (pp.frame fid).pinCount = 0 ∧ (pp.frame fid).assignment = none)
  lru_iff : ∀ fid, fid < pp.pageCount →
    (fid ∈ pp.lruList ↔ (pp.frame fid).pinCount = 0 ∧ (pp.frame fid).assignment ≠ none)
  map_keys_nodup : (pp.pageMap.map Prod.fst).Nodup
  map_sound : ∀ e ∈ pp.pageMap, e.2 < pp.pageCount ∧ (pp.frame e.2).assignment = some e.1
  map_complete : ∀ fid, fid < pp.pageCount → ∀ k, (pp.frame fid).assignment = some k →
    (k, fid) ∈ pp.pageMap
  clean_unassigned : ∀ fid, fid < pp.pageCount →
    (pp.frame fid).assignment = none → (pp.frame fid).dirty = false

/-- A one-frame pool whose single frame caches page 1 of store 0, is dirty,
unpinned and sits in the LRU list: the eviction scenarios of spec §8. -/
def demoPool : PagePool :=
  { pageCapacity := 1, pageCount := 1,
    frames := fun _ => { pinCount := 0, dirty := true, assignment := some (0, 1) },
    freeList := [], lruList := [0], pageMap := [((0, 1), 0)] }

/-- A one-frame pool whose single frame caches page 1 of store 0 and is
pinned: the pool-full scenario of spec §8. -/
def pinnedPool : PagePool :=
  { pageCapacity := 1, pageCount := 1,
    frames := fun _ => { pinCount := 1, dirty := false, assignment := some (0, 1) },
    freeList := [], lruList := [], pageMap := [((0, 1), 0)] }

/-- A two-frame pool with both frames pinned and unassigned (as handed out by
two raw `AllocPage` calls), for exercising the free-list discipline. -/
def rawPairPool : PagePool :=
  { pageCapacity := 2, pageCount := 2,
    frames := fun _ => { pinCount := 1, dirty := false, assignment := none },
    freeList := [], lruList := [], pageMap := [] }

/-- The pool state reached from a fresh one-frame pool by a single successful
`StorePage(store 0, page 5, IgnoreData)` call. -/
def demoReached : PagePool :=
  ((PagePool.init 1).storePage 0 5 PageFetchMode.kIgnorePageData true true).2.2.1

/-! The libc VFS (`src/vfs/libc_vfs.cc`).  The libc calls (`fopen`, `fseek`)
are the I/O boundary; their outcomes enter as oracle parameters and the
modelled functions mirror the status plumbing of the source. -/

/-- `OpenLibcFile`: every branch ends in some `fopen` call followed by an
`fseek`/`ftell` to learn the size; the function yields a handle with the file
size exactly when both succeed, and null otherwise.  `fopenOk` and `fseekOk`
are the libc outcomes of the branch taken (for a missing file without
`create_if_missing`, the `fopen(path, "rb+")` call fails, i.e.
`fopenOk = false`). -/
def openLibcFile (fopenOk fseekOk : Bool) (fileSize : Nat) : Option Nat :=
  if fopenOk then (if fseekOk then some fileSize else none) else none

/-- `LibcVfs::OpenForRandomAccess`: null handle from `OpenLibcFile` becomes
`kIoError`; otherwise `kSuccess` with the file size. -/
def openForRandomAccess (fopenOk fseekOk : Bool) (fileSize : Nat) :
    Status × Option Nat :=
  match openLibcFile fopenOk fseekOk fileSize with
  | none => (Status.kIoError, none)
  | some size => (Status.kSuccess, some size)

/-- `LibcVfs::OpenForBlockAccess`: same plumbing as `OpenForRandomAccess`. -/
def openForBlockAccess (fopenOk fseekOk : Bool) (fileSize : Nat) :
    Status × Option Nat :=
  match openLibcFile fopenOk fseekOk fileSize with
  | none => (Status.kIoError, none)
  | some size => (Status.kSuccess, some size)

/-- `LibcBlockAccessFile::Lock`: the body is a bare `return Status::kSuccess`
with no locking syscall, so the model takes no state and acquires nothing. -/
def libcBlockAccessFileLock : Status := Status.kSuccess

/-! Basic reduction lemmas for the frame primitives and the state record. -/

theorem Page.addPin_pinCount (p : Page) : p.addPin.pinCount = p.pinCount + 1 := rfl

theorem Page.addPin_dirty (p : Page) : p.addPin.dirty = p.dirty := rfl

theorem Page.addPin_assignment (p : Page) : p.addPin.assignment = p.assignment := rfl

theorem Page.removePin_pinCount (p : Page) : p.removePin.pinCount = p.pinCount - 1 := rfl

theorem Page.removePin_dirty (p : Page) : p.removePin.dirty = p.dirty := rfl

theorem Page.removePin_assignment (p : Page) : p.removePin.assignment = p.assignment := rfl

theorem Page.isUnpinned_iff (p : Page) : p.isUnpinned = true ↔ p.pinCount = 0 := by
  simp [Page.isUnpinned]

theorem Page.willCacheStoreData_pinCount (p : Page) (s i : Nat) :
    (p.willCacheStoreData s i).pinCount = p.pinCount := rfl

theorem Page.willCacheStoreData_dirty (p : Page) (s i : Nat) :
    (p.willCacheStoreData s i).dirty = p.dirty := rfl

theorem Page.willCacheStoreData_assignment (p : Page) (s i : Nat) :
    (p.willCacheStoreData s i).assignment = some (s, i) := rfl

theorem Page.doesNotCacheStoreData_pinCount (p : Page) :
    p.doesNotCacheStoreData.pinCount = p.pinCount := rfl

theorem Page.doesNotCacheStoreData_dirty (p : Page) :
    p.doesNotCacheStoreData.dirty = false := rfl

theorem Page.doesNotCacheStoreData_assignment (p : Page) :
    p.doesNotCacheStoreData.assignment = none := rfl

theorem Page.markDirty_pinCount (p : Page) : p.markDirty.pinCount = p.pinCount := rfl

theorem Page.markDirty_dirty (p : Page) : p.markDirty.dirty = true := rfl

theorem Page.markDirty_assignment (p : Page) : p.markDirty.assignment = p.assignment := rfl

attribute [simp] Page.addPin_pinCount Page.addPin_dirty Page.addPin_assignment
  Page.removePin_pinCount Page.removePin_dirty Page.removePin_assignment
  Page.isUnpinned_iff Page.willCacheStoreData_pinCount Page.willCacheStoreData_dirty
  Page.willCacheStoreData_assignment Page.doesNotCacheStoreData_pinCount
  Page.doesNotCacheStoreData_dirty Page.doesNotCacheStoreData_assignment
  Page.markDirty_pinCount Page.markDirty_dirty Page.markDirty_assignment

theorem PagePool.frame_setFrame (pp : PagePool) (fid g : Nat) (f : Page → Page) :
    (pp.setFrame fid f).frame g = if g = fid then f (pp.frame g) else pp.frame g := rfl

theorem PagePool.frame_setFrame_self (pp : PagePool) (fid : Nat) (f : Page → Page) :
    (pp.setFrame fid f).frame fid = f (pp.frame fid) := by
  simp [PagePool.frame_setFrame]

theorem PagePool.frame_setFrame_ne (pp : PagePool) {g fid : Nat} (f : Page → Page)
    (h : g ≠ fid) : (pp.setFrame fid f).frame g = pp.frame g := by
  simp [PagePool.frame_setFrame, h]

theorem PagePool.setFrame_pageCapacity (pp : PagePool) (fid : Nat) (f : Page → Page) :
    (pp.setFrame fid f).pageCapacity = pp.pageCapacity := rfl

theorem PagePool.setFrame_pageCount (pp : PagePool) (fid : Nat) (f : Page → Page) :
    (pp.setFrame fid f).pageCount = pp.pageCount := rfl

theorem PagePool.setFrame_freeList (pp : PagePool) (fid : Nat) (f : Page → Page) :
    (pp.setFrame fid f).freeList = pp.freeList := rfl

theorem PagePool.setFrame_lruList (pp : PagePool) (fid : Nat) (f : Page → Page) :
    (pp.setFrame fid f).lruList = pp.lruList := rfl

theorem PagePool.setFrame_pageMap (pp : PagePool) (fid : Nat) (f : Page → Page) :
    (pp.setFrame fid f).pageMap = pp.pageMap := rfl

attribute [simp] PagePool.setFrame_pageCapacity PagePool.setFrame_pageCount
  PagePool.setFrame_freeList PagePool.setFrame_lruList PagePool.setFrame_pageMap

/-! Lemmas about the association-list resident map. -/

theorem mem_eraseKey {m : List ((Nat × Nat) × Nat)} {k : Nat × Nat}
    {e : (Nat × Nat) × Nat} : e ∈ eraseKey m k ↔ e ∈ m ∧ e.1 ≠ k := by
  simp [eraseKey, List.mem_filter]

theorem eraseKey_sublist (m : List ((Nat × Nat) × Nat)) (k : Nat × Nat) :
    (eraseKey m k).Sublist m :=
  List.filter_sublist m

theorem keys_nodup_eraseKey {m : List ((Nat × Nat) × Nat)} {k : Nat × Nat}
    (h : (m.map Prod.fst).Nodup) : ((eraseKey m k).map Prod.fst).Nodup :=
  ((eraseKey_sublist m k).map Prod.fst).nodup h

theorem lookupKey_eq_none_iff {m : List ((Nat × Nat) × Nat)} {k : Nat × Nat} :
    lookupKey m k = none ↔ ∀ v, (k, v) ∉ m := by
  induction m with
  | nil => simp [lookupKey]
  | cons e rest ih =>
    by_cases h : e.1 = k
    · simp only [lookupKey, if_pos h]
      constructor
      · intro hc
        exact absurd hc (by simp)
      · intro hall
        exact absurd (show (k, e.2) ∈ e :: rest by
          rw [show (k, e.2) = e from Prod.ext h.symm rfl]
          exact List.mem_cons_self e rest) (hall e.2)
    · simp only [lookupKey, if_neg h, ih]
      constructor
      · intro hall v hv
        rcases List.mem_cons.mp hv with heq | hmem
        · exact h (by rw [← heq])
        · exact hall v hmem
      · intro hall v hv
        exact hall v (List.mem_cons_of_mem e hv)

theorem mem_of_lookupKey_eq_some {m : List ((Nat × Nat) × Nat)} {k : Nat × Nat}
    {v : Nat} (h : lookupKey m k = some v) : (k, v) ∈ m := by
  induction m with
  | nil => simp [lookupKey] at h
  | cons e rest ih =>
    by_cases he : e.1 = k
    · rw [lookupKey, if_pos he] at h
      injection h with h2
      rw [show (k, v) = e from Prod.ext he.symm h2.symm]
      exact List.mem_cons_self e rest
    · rw [lookupKey, if_neg he] at h
      exact List.mem_cons_of_mem e (ih h)

theorem lookupKey_eq_some_of_mem {m : List ((Nat × Nat) × Nat)} {k : Nat × Nat}
    {v : Nat} (hnd : (m.map Prod.fst).Nodup) (hm : (k, v) ∈ m) :
    lookupKey m k = some v := by
  induction m with
  | nil => simp at hm
  | cons e rest ih =>
    rw [List.map_cons, List.nodup_cons] at hnd
    rcases List.mem_cons.mp hm with heq | hmem
    · rw [lookupKey, if_pos (by rw [← heq]), ← heq]
    · have hne : e.1 ≠ k := by
        intro hc
        exact hnd.1 (by
          rw [hc]
          exact List.mem_map_of_mem Prod.fst hmem)
      rw [lookupKey, if_neg hne]
      exact ih hnd.2 hmem

theorem lookupKey_eraseKey_self (m : List ((Nat × Nat) × Nat)) (k : Nat × Nat) :
    lookupKey (eraseKey m k) k = none := by
  rw [lookupKey_eq_none_iff]
  intro v hv
  exact (mem_eraseKey.mp hv).2 rfl

theorem lookupKey_eq_none_of_eq_none {m : List ((Nat × Nat) × Nat)}
    {k k' : Nat × Nat} (h : lookupKey m k' = none) :
    lookupKey (eraseKey m k) k' = none := by
  rw [lookupKey_eq_none_iff] at h ⊢
  intro v hv
  exact h v (mem_eraseKey.mp hv).1

theorem mem_insertKey {m : List ((Nat × Nat) × Nat)} {k : Nat × Nat} {v : Nat}
    {e : (Nat × Nat) × Nat} :
    e ∈ insertKey m k v ↔ e = (k, v) ∨ (e ∈ m ∧ e.1 ≠ k) := by
  simp [insertKey, List.mem_cons, mem_eraseKey]

theorem keys_nodup_insertKey {m : List ((Nat × Nat) × Nat)} {k : Nat × Nat}
    {v : Nat} (h : (m.map Prod.fst).Nodup) :
    ((insertKey m k v).map Prod.fst).Nodup := by
  rw [insertKey, List.map_cons, List.nodup_cons]
  refine ⟨?_, keys_nodup_eraseKey h⟩
  intro hc
  rcases List.mem_map.mp hc with ⟨e, hmem, hkey⟩
  exact (mem_eraseKey.mp hmem).2 hkey

theorem nodup_append_single {l : List Nat} {a : Nat} (h : l.Nodup) (ha : a ∉ l) :
    (l ++ [a]).Nodup := by
  rw [List.nodup_append]
  exact ⟨h, List.nodup_singleton a, by
    intro x hx hxa
    rw [List.mem_singleton] at hxa
    exact ha (hxa ▸ hx)⟩

/-! Invariant preservation, one lemma per pool operation. -/

theorem notMem_free_of_pinned {pp : PagePool} {fid : Nat} (hinv : PoolInv pp)
    (hlt : fid < pp.pageCount) (hpin : 0 < (pp.frame fid).pinCount) :
    fid ∉ pp.freeList := by
  intro hc
  have := (hinv.free_iff fid hlt).mp hc
  omega

theorem notMem_lru_of_pinned {pp : PagePool} {fid : Nat} (hinv : PoolInv pp)
    (hlt : fid < pp.pageCount) (hpin : 0 < (pp.frame fid).pinCount) :
    fid ∉ pp.lruList := by
  intro hc
  have := (hinv.lru_iff fid hlt).mp hc
  omega
theorem PagePool.frame_mk (a b : Nat) (c : Nat → Page) (d e : List Nat)
    (m : List ((Nat × Nat) × Nat)) (g : Nat) :
    (PagePool.mk a b c d e m).frame g = c g := rfl

theorem ite_same_eq {α : Sort u} (a : Nat) (x y : α) :
    (if a = a then x else y) = x := if_pos rfl

theorem poolInv_unpinUnassignedPage {pp : PagePool} {fid : Nat} (hinv : PoolInv pp)
    (hlt : fid < pp.pageCount) (hasg : (pp.frame fid).assignment = none)
    (hpin : 0 < (pp.frame fid).pinCount) :
    PoolInv (pp.unpinUnassignedPage fid) := by
  have hnf : fid ∉ pp.freeList := notMem_free_of_pinned hinv hlt hpin
  have hnl : fid ∉ pp.lruList := notMem_lru_of_pinned hinv hlt hpin
  by_cases hone : (pp.frame fid).pinCount = 1
  · have hcond : ((pp.setFrame fid Page.removePin).frame fid).isUnpinned = true := by
      rw [PagePool.frame_setFrame_self]
      simp [hone]
    have hstate : pp.unpinUnassignedPage fid = PagePool.mk pp.pageCapacity pp.pageCount
        (fun i => if i = fid then Page.removePin (pp.frame i) else pp.frame i)
        (pp.freeList ++ [fid]) pp.lruList pp.pageMap := by
      simp only [PagePool.unpinUnassignedPage]
      rw [if_pos hcond]
      rfl
    rw [hstate]
    refine ⟨hinv.capacity, ?_, hinv.lru_lt, nodup_append_single hinv.free_nodup hnf,
      hinv.lru_nodup, ?_, ?_, hinv.map_keys_nodup, ?_, ?_, ?_⟩
    · intro g hg
      rcases List.mem_append.mp hg with hg2 | hg2
      · exact hinv.free_lt g hg2
      · rw [List.mem_singleton] at hg2
        exact hg2 ▸ hlt
    · intro g hg
      simp only [PagePool.frame_mk]
      by_cases hgf : g = fid
      · subst hgf
        simp only [ite_same_eq, List.mem_append, List.mem_singleton]
        constructor
        · intro _
          refine ⟨?_, hasg⟩
          simp [hone]
        · intro _
          exact Or.inr trivial
      · simp only [if_neg hgf, List.mem_append, List.mem_singleton]
        constructor
        · rintro (hmem | heq)
          · exact (hinv.free_iff g hg).mp hmem
          · exact absurd heq hgf
        · intro hc
          exact Or.inl ((hinv.free_iff g hg).mpr hc)
    · intro g hg
      simp only [PagePool.frame_mk]
      by_cases hgf : g = fid
      · subst hgf
        simp only [ite_same_eq, Page.removePin_pinCount, Page.removePin_assignment]
        constructor
        · intro hc
          exact absurd hc hnl
        · rintro ⟨-, hzz⟩
          exact absurd hasg hzz
      · simp only [if_neg hgf]
        exact hinv.lru_iff g hg
    · intro e he
      have h1 := hinv.map_sound e he
      have hef : e.2 ≠ fid := by
        intro hc
        have h2 := h1.2
        rw [hc, hasg] at h2
        exact Option.noConfusion h2
      simp only [PagePool.frame_mk, if_neg hef]
      exact h1
    · intro g hg k hk
      simp only [PagePool.frame_mk] at hk
      by_cases hgf : g = fid
      · rw [if_pos hgf] at hk
        simp only [Page.removePin_assignment] at hk
        rw [hgf, hasg] at hk
        exact Option.noConfusion hk
      · rw [if_neg hgf] at hk
        exact hinv.map_complete g hg k hk
    · intro g hg
      simp only [PagePool.frame_mk]
      by_cases hgf : g = fid
      · subst hgf
        rw [ite_same_eq]
        intro _
        simp [hinv.clean_unassigned g hlt hasg]
      · rw [if_neg hgf]
        exact hinv.clean_unassigned g hg
  · have hcond : ¬(((pp.setFrame fid Page.removePin).frame fid).isUnpinned = true) := by
      rw [PagePool.frame_setFrame_self]
      simp only [Page.isUnpinned_iff, Page.removePin_pinCount]
      omega
    have hstate : pp.unpinUnassignedPage fid = PagePool.mk pp.pageCapacity pp.pageCount
        (fun i => if i = fid then Page.removePin (pp.frame i) else pp.frame i)
        pp.freeList pp.lruList pp.pageMap := by
      simp only [PagePool.unpinUnassignedPage]
      rw [if_neg hcond]
      rfl
    rw [hstate]
    refine ⟨hinv.capacity, hinv.free_lt, hinv.lru_lt, hinv.free_nodup,
      hinv.lru_nodup, ?_, ?_, hinv.map_keys_nodup, ?_, ?_, ?_⟩
    · intro g hg
      simp only [PagePool.frame_mk]
      by_cases hgf : g = fid
      · subst hgf
        simp only [ite_same_eq, Page.removePin_pinCount, Page.removePin_assignment]
        constructor
        · intro hc
          exact absurd hc hnf
        · rintro ⟨hc1, -⟩
          simp only [ite_same_eq, ite_true, Page.removePin_pinCount] at hc1
          exact absurd hc1 (by omega)
      · simp only [if_neg hgf]
        exact hinv.free_iff g hg
    · intro g hg
      simp only [PagePool.frame_mk]
      by_cases hgf : g = fid
      · subst hgf
        simp only [ite_same_eq, Page.removePin_pinCount, Page.removePin_assignment]
        constructor
        · intro hc
          exact absurd hc hnl
        · rintro ⟨hc1, -⟩
          simp only [ite_same_eq, ite_true, Page.removePin_pinCount] at hc1
          exact absurd hc1 (by omega)
      · simp only [if_neg hgf]
        exact hinv.lru_iff g hg
    · intro e he
      have h1 := hinv.map_sound e he
      have hef : e.2 ≠ fid := by
        intro hc
        have h2 := h1.2
        rw [hc, hasg] at h2
        exact Option.noConfusion h2
      simp only [PagePool.frame_mk, if_neg hef]
      exact h1
    · intro g hg k hk
      simp only [PagePool.frame_mk] at hk
      by_cases hgf : g = fid
      · rw [if_pos hgf] at hk
        simp only [Page.removePin_assignment] at hk
        rw [hgf, hasg] at hk
        exact Option.noConfusion hk
      · rw [if_neg hgf] at hk
        exact hinv.map_complete g hg k hk
    · intro g hg
      simp only [PagePool.frame_mk]
      by_cases hgf : g = fid
      · subst hgf
        rw [ite_same_eq]
        intro _
        simp [hinv.clean_unassigned g hlt hasg]
      · rw [if_neg hgf]
        exact hinv.clean_unassigned g hg
theorem poolInv_unpinStorePage {pp : PagePool} {fid : Nat} (hinv : PoolInv pp)
    (hlt : fid < pp.pageCount) (hasg : (pp.frame fid).assignment ≠ none)
    (hpin : 0 < (pp.frame fid).pinCount) :
    PoolInv (pp.unpinStorePage fid) := by
  have hnf : fid ∉ pp.freeList := notMem_free_of_pinned hinv hlt hpin
  have hnl : fid ∉ pp.lruList := notMem_lru_of_pinned hinv hlt hpin
  by_cases hone : (pp.frame fid).pinCount = 1
  · have hcond : ((pp.setFrame fid Page.removePin).frame fid).isUnpinned = true := by
      rw [PagePool.frame_setFrame_self]
      simp [hone]
    have hstate : pp.unpinStorePage fid = PagePool.mk pp.pageCapacity pp.pageCount
        (fun i => if i = fid then Page.removePin (pp.frame i) else pp.frame i)
        pp.freeList (pp.lruList ++ [fid]) pp.pageMap := by
      simp only [PagePool.unpinStorePage]
      rw [if_pos hcond]
      rfl
    rw [hstate]
    refine ⟨hinv.capacity, hinv.free_lt, ?_, hinv.free_nodup,
      nodup_append_single hinv.lru_nodup hnl, ?_, ?_, hinv.map_keys_nodup, ?_, ?_, ?_⟩
    · intro g hg
      rcases List.mem_append.mp hg with hg2 | hg2
      · exact hinv.lru_lt g hg2
      · rw [List.mem_singleton] at hg2
        exact hg2 ▸ hlt
    · intro g hg
      simp only [PagePool.frame_mk]
      by_cases hgf : g = fid
      · subst hgf
        simp only [ite_same_eq, ite_true, Page.removePin_pinCount,
          Page.removePin_assignment]
        constructor
        · intro hc
          exact absurd hc hnf
        · rintro ⟨-, hzz⟩
          exact absurd hzz hasg
      · simp only [if_neg hgf]
        exact hinv.free_iff g hg
    · intro g hg
      simp only [PagePool.frame_mk]
      by_cases hgf : g = fid
      · subst hgf
        simp only [ite_same_eq, ite_true, Page.removePin_pinCount,
          Page.removePin_assignment, List.mem_append, List.mem_singleton]
        constructor
        · intro _
          exact ⟨by omega, hasg⟩
        · intro _
          exact Or.inr trivial
      · simp only [if_neg hgf, List.mem_append, List.mem_singleton]
        constructor
        · rintro (hmem | heq)
          · exact (hinv.lru_iff g hg).mp hmem
          · exact absurd heq hgf
        · intro hc
          exact Or.inl ((hinv.lru_iff g hg).mpr hc)
    · intro e he
      have h1 := hinv.map_sound e he
      refine ⟨h1.1, ?_⟩
      simp only [PagePool.frame_mk]
      by_cases hef : e.2 = fid
      · rw [if_pos hef]
        simp only [Page.removePin_assignment]
        exact h1.2
      · rw [if_neg hef]
        exact h1.2
    · intro g hg k hk
      simp only [PagePool.frame_mk] at hk
      by_cases hgf : g = fid
      · rw [if_pos hgf] at hk
        simp only [Page.removePin_assignment] at hk
        exact hinv.map_complete g hg k hk
      · rw [if_neg hgf] at hk
        exact hinv.map_complete g hg k hk
    · intro g hg
      simp only [PagePool.frame_mk]
      by_cases hgf : g = fid
      · rw [if_pos hgf]
        simp only [Page.removePin_assignment, Page.removePin_dirty]
        rw [hgf]
        exact hinv.clean_unassigned fid hlt
      · rw [if_neg hgf]
        exact hinv.clean_unassigned g hg
  · have hcond : ¬(((pp.setFrame fid Page.removePin).frame fid).isUnpinned = true) := by
      rw [PagePool.frame_setFrame_self]
      simp only [Page.isUnpinned_iff, Page.removePin_pinCount]
      omega
    have hstate : pp.unpinStorePage fid = PagePool.mk pp.pageCapacity pp.pageCount
        (fun i => if i = fid then Page.removePin (pp.frame i) else pp.frame i)
        pp.freeList pp.lruList pp.pageMap := by
      simp only [PagePool.unpinStorePage]
      rw [if_neg hcond]
      rfl
    rw [hstate]
    refine ⟨hinv.capacity, hinv.free_lt, hinv.lru_lt, hinv.free_nodup,
      hinv.lru_nodup, ?_, ?_, hinv.map_keys_nodup, ?_, ?_, ?_⟩
    · intro g hg
      simp only [PagePool.frame_mk]
      by_cases hgf : g = fid
      · subst hgf
        simp only [ite_same_eq, ite_true, Page.removePin_pinCount,
          Page.removePin_assignment]
        constructor
        · intro hc
          exact absurd hc hnf
        · rintro ⟨-, hzz⟩
          exact absurd hzz hasg
      · simp only [if_neg hgf]
        exact hinv.free_iff g hg
    · intro g hg
      simp only [PagePool.frame_mk]
      by_cases hgf : g = fid
      · subst hgf
        simp only [ite_same_eq, ite_true, Page.removePin_pinCount,
          Page.removePin_assignment]
        constructor
        · intro hc
          exact absurd hc hnl
        · rintro ⟨hc1, -⟩
          exact absurd hc1 (by omega)
      · simp only [if_neg hgf]
        exact hinv.lru_iff g hg
    · intro e he
      have h1 := hinv.map_sound e he
      refine ⟨h1.1, ?_⟩
      simp only [PagePool.frame_mk]
      by_cases hef : e.2 = fid
      · rw [if_pos hef]
        simp only [Page.removePin_assignment]
        exact h1.2
      · rw [if_neg hef]
        exact h1.2
    · intro g hg k hk
      simp only [PagePool.frame_mk] at hk
      by_cases hgf : g = fid
      · rw [if_pos hgf] at hk
        simp only [Page.removePin_assignment] at hk
        exact hinv.map_complete g hg k hk
      · rw [if_neg hgf] at hk
        exact hinv.map_complete g hg k hk
    · intro g hg
      simp only [PagePool.frame_mk]
      by_cases hgf : g = fid
      · rw [if_pos hgf]
        simp only [Page.removePin_assignment, Page.removePin_dirty]
        rw [hgf]
        exact hinv.clean_unassigned fid hlt
      · rw [if_neg hgf]
        exact hinv.clean_unassigned g hg

theorem poolInv_pinStorePage {pp : PagePool} {fid : Nat} (hinv : PoolInv pp)
    (hlt : fid < pp.pageCount) (hasg : (pp.frame fid).assignment ≠ none) :
    PoolInv (pp.pinStorePage fid) := by
  have hnf : fid ∉ pp.freeList := by
    intro hc
    exact hasg ((hinv.free_iff fid hlt).mp hc).2
  by_cases hzero : (pp.frame fid).pinCount = 0
  · have hcond : (pp.frame fid).isUnpinned = true := by
      simp [hzero]
    have hstate : pp.pinStorePage fid = PagePool.mk pp.pageCapacity pp.pageCount
        (fun i => if i = fid then Page.addPin (pp.frame i) else pp.frame i)
        pp.freeList (pp.lruList.erase fid) pp.pageMap := by
      simp only [PagePool.pinStorePage]
      rw [if_pos hcond]
      rfl
    rw [hstate]
    refine ⟨hinv.capacity, hinv.free_lt, ?_, hinv.free_nodup,
      hinv.lru_nodup.erase fid, ?_, ?_, hinv.map_keys_nodup, ?_, ?_, ?_⟩
    · intro g hg
      exact hinv.lru_lt g (List.mem_of_mem_erase hg)
    · intro g hg
      simp only [PagePool.frame_mk]
      by_cases hgf : g = fid
      · subst hgf
        simp only [ite_same_eq, ite_true, Page.addPin_pinCount, Page.addPin_assignment]
        constructor
        · intro hc
          exact absurd hc hnf
        · rintro ⟨hc1, -⟩
          exact absurd hc1 (by omega)
      · simp only [if_neg hgf]
        exact hinv.free_iff g hg
    · intro g hg
      simp only [PagePool.frame_mk]
      by_cases hgf : g = fid
      · subst hgf
        simp only [ite_same_eq, ite_true, Page.addPin_pinCount, Page.addPin_assignment]
        constructor
        · intro hc
          exact absurd ((hinv.lru_nodup.mem_erase_iff).mp hc).1 (by simp)
        · rintro ⟨hc1, -⟩
          exact absurd hc1 (by omega)
      · simp only [if_neg hgf]
        rw [List.mem_erase_of_ne hgf]
        exact hinv.lru_iff g hg
    · intro e he
      have h1 := hinv.map_sound e he
      refine ⟨h1.1, ?_⟩
      simp only [PagePool.frame_mk]
      by_cases hef : e.2 = fid
      · rw [if_pos hef]
        simp only [Page.addPin_assignment]
        exact h1.2
      · rw [if_neg hef]
        exact h1.2
    · intro g hg k hk
      simp only [PagePool.frame_mk] at hk
      by_cases hgf : g = fid
      · rw [if_pos hgf] at hk
        simp only [Page.addPin_assignment] at hk
        exact hinv.map_complete g hg k hk
      · rw [if_neg hgf] at hk
        exact hinv.map_complete g hg k hk
    · intro g hg
      simp only [PagePool.frame_mk]
      by_cases hgf : g = fid
      · rw [if_pos hgf]
        simp only [Page.addPin_assignment, Page.addPin_dirty]
        rw [hgf]
        exact hinv.clean_unassigned fid hlt
      · rw [if_neg hgf]
        exact hinv.clean_unassigned g hg
  · have hnl : fid ∉ pp.lruList :=
      notMem_lru_of_pinned hinv hlt (Nat.pos_of_ne_zero hzero)
    have hcond : ¬((pp.frame fid).isUnpinned = true) := by
      simp [hzero]
    have hstate : pp.pinStorePage fid = PagePool.mk pp.pageCapacity pp.pageCount
        (fun i => if i = fid then Page.addPin (pp.frame i) else pp.frame i)
        pp.freeList pp.lruList pp.pageMap := by
      simp only [PagePool.pinStorePage]
      rw [if_neg hcond]
      rfl
    rw [hstate]
    refine ⟨hinv.capacity, hinv.free_lt, hinv.lru_lt, hinv.free_nodup,
      hinv.lru_nodup, ?_, ?_, hinv.map_keys_nodup, ?_, ?_, ?_⟩
    · intro g hg
      simp only [PagePool.frame_mk]
      by_cases hgf : g = fid
      · subst hgf
        simp only [ite_same_eq, ite_true, Page.addPin_pinCount, Page.addPin_assignment]
        constructor
        · intro hc
          exact absurd hc hnf
        · rintro ⟨hc1, -⟩
          exact absurd hc1 (by omega)
      · simp only [if_neg hgf]
        exact hinv.free_iff g hg
    · intro g hg
      simp only [PagePool.frame_mk]
      by_cases hgf : g = fid
      · subst hgf
        simp only [ite_same_eq, ite_true, Page.addPin_pinCount, Page.addPin_assignment]
        constructor
        · intro hc
          exact absurd hc hnl
        · rintro ⟨hc1, -⟩
          exact absurd hc1 (by omega)
      · simp only [if_neg hgf]
        exact hinv.lru_iff g hg
    · intro e he
      have h1 := hinv.map_sound e he
      refine ⟨h1.1, ?_⟩
      simp only [PagePool.frame_mk]
      by_cases hef : e.2 = fid
      · rw [if_pos hef]
        simp only [Page.addPin_assignment]
        exact h1.2
      · rw [if_neg hef]
        exact h1.2
    · intro g hg k hk
      simp only [PagePool.frame_mk] at hk
      by_cases hgf : g = fid
      · rw [if_pos hgf] at hk
        simp only [Page.addPin_assignment] at hk
        exact hinv.map_complete g hg k hk
      · rw [if_neg hgf] at hk
        exact hinv.map_complete g hg k hk
    · intro g hg
      simp only [PagePool.frame_mk]
      by_cases hgf : g = fid
      · rw [if_pos hgf]
        simp only [Page.addPin_assignment, Page.addPin_dirty]
        rw [hgf]
        exact hinv.clean_unassigned fid hlt
      · rw [if_neg hgf]
        exact hinv.clean_unassigned g hg

theorem poolInv_markDirty {pp : PagePool} {fid : Nat} (hinv : PoolInv pp)
    (hlt : fid < pp.pageCount) (hasg : (pp.frame fid).assignment ≠ none) :
    PoolInv (pp.setFrame fid Page.markDirty) := by
  have hstate : pp.setFrame fid Page.markDirty = PagePool.mk pp.pageCapacity
      pp.pageCount (fun i => if i = fid then Page.markDirty (pp.frame i) else pp.frame i)
      pp.freeList pp.lruList pp.pageMap := rfl
  rw [hstate]
  refine ⟨hinv.capacity, hinv.free_lt, hinv.lru_lt, hinv.free_nodup,
    hinv.lru_nodup, ?_, ?_, hinv.map_keys_nodup, ?_, ?_, ?_⟩
  · intro g hg
    simp only [PagePool.frame_mk]
    by_cases hgf : g = fid
    · subst hgf
      simp only [ite_same_eq, ite_true, Page.markDirty_pinCount,
        Page.markDirty_assignment]
      exact hinv.free_iff g hg
    · simp only [if_neg hgf]
      exact hinv.free_iff g hg
  · intro g hg
    simp only [PagePool.frame_mk]
    by_cases hgf : g = fid
    · subst hgf
      simp only [ite_same_eq, ite_true, Page.markDirty_pinCount,
        Page.markDirty_assignment]
      exact hinv.lru_iff g hg
    · simp only [if_neg hgf]
      exact hinv.lru_iff g hg
  · intro e he
    have h1 := hinv.map_sound e he
    refine ⟨h1.1, ?_⟩
    simp only [PagePool.frame_mk]
    by_cases hef : e.2 = fid
    · rw [if_pos hef]
      simp only [Page.markDirty_assignment]
      exact h1.2
    · rw [if_neg hef]
      exact h1.2
  · intro g hg k hk
    simp only [PagePool.frame_mk] at hk
    by_cases hgf : g = fid
    · rw [if_pos hgf] at hk
      simp only [Page.markDirty_assignment] at hk
      exact hinv.map_complete g hg k hk
    · rw [if_neg hgf] at hk
      exact hinv.map_complete g hg k hk
  · intro g hg
    simp only [PagePool.frame_mk]
    by_cases hgf : g = fid
    · rw [if_pos hgf]
      simp only [Page.markDirty_assignment]
      intro hc
      rw [hgf] at hc
      exact absurd hc hasg
    · rw [if_neg hgf]
      exact hinv.clean_unassigned g hg

theorem key_unique {m : List ((Nat × Nat) × Nat)} {k : Nat × Nat} {a b : Nat}
    (hnd : (m.map Prod.fst).Nodup) (ha : (k, a) ∈ m) (hb : (k, b) ∈ m) : a = b := by
  have h1 := lookupKey_eq_some_of_mem hnd ha
  have h2 := lookupKey_eq_some_of_mem hnd hb
  rw [h1] at h2
  exact Option.some.inj h2

theorem fetchStorePage_of_assigned {pp : PagePool} {fid s i : Nat}
    (hasg : (pp.frame fid).assignment = some (s, i)) (readOk : Bool) :
    pp.fetchStorePage fid PageFetchMode.kFetchPageData readOk =
      (if readOk then Status.kSuccess else Status.kIoError,
        [PoolEvent.readPage s i fid]) := by
  simp only [PagePool.fetchStorePage, hasg]

theorem fetchStorePage_ignore (pp : PagePool) (fid : Nat) (readOk : Bool) :
    pp.fetchStorePage fid PageFetchMode.kIgnorePageData readOk =
      (Status.kSuccess, []) := rfl

theorem unassignPageFromStore_fst {pp : PagePool} {fid : Nat} {k : Nat × Nat}
    (hasg : (pp.frame fid).assignment = some k) (writeOk : Bool) :
    (pp.unassignPageFromStore fid writeOk).1 = PagePool.mk pp.pageCapacity
      pp.pageCount
      (fun i => if i = fid then Page.doesNotCacheStoreData (pp.frame i) else pp.frame i)
      pp.freeList pp.lruList (eraseKey pp.pageMap k) := by
  obtain ⟨s, i⟩ := k
  simp only [PagePool.unassignPageFromStore, hasg]
  rw [apply_ite Prod.fst]
  simp only [ite_self]
  rfl

theorem unassignPageFromStore_snd_dirty {pp : PagePool} {fid : Nat} {k : Nat × Nat}
    (hasg : (pp.frame fid).assignment = some k) (hd : (pp.frame fid).dirty = true)
    (writeOk : Bool) :
    (pp.unassignPageFromStore fid writeOk).2 =
      [PoolEvent.writePage k.1 k.2 fid, PoolEvent.unassignPersistedPage fid]
        ++ (if writeOk then [] else [PoolEvent.closeStore k.1]) := by
  obtain ⟨s, i⟩ := k
  simp only [PagePool.unassignPageFromStore, hasg]
  rw [if_pos (show ((PagePool.mk pp.pageCapacity pp.pageCount pp.frames pp.freeList
    pp.lruList (eraseKey pp.pageMap (s, i))).frame fid).dirty = true from hd)]

theorem unassignPageFromStore_snd_clean {pp : PagePool} {fid : Nat} {k : Nat × Nat}
    (hasg : (pp.frame fid).assignment = some k) (hd : (pp.frame fid).dirty = false)
    (writeOk : Bool) :
    (pp.unassignPageFromStore fid writeOk).2 = [PoolEvent.unassignPage fid] := by
  obtain ⟨s, i⟩ := k
  simp only [PagePool.unassignPageFromStore, hasg]
  rw [if_neg (show ¬((PagePool.mk pp.pageCapacity pp.pageCount pp.frames pp.freeList
    pp.lruList (eraseKey pp.pageMap (s, i))).frame fid).dirty = true by
      rw [show ((PagePool.mk pp.pageCapacity pp.pageCount pp.frames pp.freeList
        pp.lruList (eraseKey pp.pageMap (s, i))).frame fid).dirty =
          (pp.frame fid).dirty from rfl, hd]
      simp)]

theorem poolInv_unassignPageFromStore {pp : PagePool} {fid : Nat} {k : Nat × Nat}
    (hinv : PoolInv pp) (hlt : fid < pp.pageCount)
    (hasg : (pp.frame fid).assignment = some k)
    (hpin : 0 < (pp.frame fid).pinCount) (writeOk : Bool) :
    PoolInv (pp.unassignPageFromStore fid writeOk).1 := by
  have hnf : fid ∉ pp.freeList := notMem_free_of_pinned hinv hlt hpin
  have hnl : fid ∉ pp.lruList := notMem_lru_of_pinned hinv hlt hpin
  rw [unassignPageFromStore_fst hasg]
  refine ⟨hinv.capacity, hinv.free_lt, hinv.lru_lt, hinv.free_nodup,
    hinv.lru_nodup, ?_, ?_, keys_nodup_eraseKey hinv.map_keys_nodup, ?_, ?_, ?_⟩
  · intro g hg
    simp only [PagePool.frame_mk]
    by_cases hgf : g = fid
    · subst hgf
      simp only [ite_same_eq, ite_true, Page.doesNotCacheStoreData_pinCount,
        Page.doesNotCacheStoreData_assignment]
      constructor
      · intro hc
        exact absurd hc hnf
      · rintro ⟨hc1, -⟩
        exact absurd hc1 (by omega)
    · simp only [if_neg hgf]
      exact hinv.free_iff g hg
  · intro g hg
    simp only [PagePool.frame_mk]
    by_cases hgf : g = fid
    · subst hgf
      simp only [ite_same_eq, ite_true, Page.doesNotCacheStoreData_pinCount,
        Page.doesNotCacheStoreData_assignment]
      constructor
      · intro hc
        exact absurd hc hnl
      · rintro ⟨hc1, -⟩
        exact absurd hc1 (by omega)
    · simp only [if_neg hgf]
      exact hinv.lru_iff g hg
  · intro e he
    rcases mem_eraseKey.mp he with ⟨hmem, hne⟩
    have h1 := hinv.map_sound e hmem
    have hef : e.2 ≠ fid := by
      intro hc
      rw [hc, hasg] at h1
      exact hne (Option.some.inj h1.2.symm) |>.elim
    refine ⟨h1.1, ?_⟩
    simp only [PagePool.frame_mk, if_neg hef]
    exact h1.2
  · intro g hg k' hk
    simp only [PagePool.frame_mk] at hk
    by_cases hgf : g = fid
    · rw [if_pos hgf] at hk
      simp only [Page.doesNotCacheStoreData_assignment] at hk
      exact Option.noConfusion hk
    · rw [if_neg hgf] at hk
      have hmem := hinv.map_complete g hg k' hk
      refine mem_eraseKey.mpr ⟨hmem, ?_⟩
      intro hc
      have hmem2 := hinv.map_complete fid hlt k hasg
      rw [show ((k', g) : (Nat × Nat) × Nat).1 = k' from rfl] at hc
      subst hc
      exact hgf (key_unique hinv.map_keys_nodup hmem hmem2)
  · intro g hg
    simp only [PagePool.frame_mk]
    by_cases hgf : g = fid
    · rw [if_pos hgf]
      intro _
      simp only [Page.doesNotCacheStoreData_dirty]
    · rw [if_neg hgf]
      exact hinv.clean_unassigned g hg

theorem pinStorePage_pageCount (pp : PagePool) (fid : Nat) :
    (pp.pinStorePage fid).pageCount = pp.pageCount := by
  simp only [PagePool.pinStorePage, PagePool.setFrame_pageCount]
  split <;> rfl

theorem pinStorePage_pageCapacity (pp : PagePool) (fid : Nat) :
    (pp.pinStorePage fid).pageCapacity = pp.pageCapacity := by
  simp only [PagePool.pinStorePage, PagePool.setFrame_pageCapacity]
  split <;> rfl

theorem pinStorePage_pageMap (pp : PagePool) (fid : Nat) :
    (pp.pinStorePage fid).pageMap = pp.pageMap := by
  simp only [PagePool.pinStorePage, PagePool.setFrame_pageMap]
  split <;> rfl

theorem pinStorePage_frame_assignment (pp : PagePool) (fid g : Nat) :
    ((pp.pinStorePage fid).frame g).assignment = (pp.frame g).assignment := by
  simp only [PagePool.pinStorePage, PagePool.frame_setFrame]
  by_cases hgf : g = fid
  · rw [if_pos hgf]
    simp only [Page.addPin_assignment]
    split <;> rfl
  · rw [if_neg hgf]
    split <;> rfl

theorem pinStorePage_frame_pinCount_self (pp : PagePool) (fid : Nat) :
    ((pp.pinStorePage fid).frame fid).pinCount = (pp.frame fid).pinCount + 1 := by
  simp only [PagePool.pinStorePage]
  by_cases h : (pp.frame fid).isUnpinned = true
  · rw [if_pos h, PagePool.frame_setFrame_self]
    rfl
  · rw [if_neg h, PagePool.frame_setFrame_self]
    rfl

theorem allocPage_free {pp : PagePool} {fid : Nat} {rest : List Nat}
    (h : pp.freeList = fid :: rest) (writeOk : Bool) :
    pp.allocPage writeOk = (some fid, PagePool.mk pp.pageCapacity pp.pageCount
      (fun i => if i = fid then Page.addPin (pp.frame i) else pp.frame i)
      rest pp.lruList pp.pageMap, []) := by
  simp only [PagePool.allocPage, h]
  rfl

theorem allocPage_grow {pp : PagePool} (hfree : pp.freeList = [])
    (hcap : pp.pageCount < pp.pageCapacity) (writeOk : Bool) :
    pp.allocPage writeOk = (some pp.pageCount, PagePool.mk pp.pageCapacity
      (pp.pageCount + 1)
      (fun i => if i = pp.pageCount then Page.create else pp.frame i)
      pp.freeList pp.lruList pp.pageMap, []) := by
  simp only [PagePool.allocPage, hfree]
  rw [if_pos hcap]
  rfl

theorem allocPage_evict {pp : PagePool} {fid : Nat} {rest : List Nat}
    (hfree : pp.freeList = []) (hcap : ¬pp.pageCount < pp.pageCapacity)
    (hlru : pp.lruList = fid :: rest) (writeOk : Bool) :
    pp.allocPage writeOk = (some fid,
      ((({ pp with lruList := rest } : PagePool).setFrame fid
        Page.addPin).unassignPageFromStore fid writeOk).1,
      ((({ pp with lruList := rest } : PagePool).setFrame fid
        Page.addPin).unassignPageFromStore fid writeOk).2) := by
  simp only [PagePool.allocPage, hfree, hlru]
  rw [if_neg hcap]

theorem allocPage_none {pp : PagePool} (hfree : pp.freeList = [])
    (hcap : ¬pp.pageCount < pp.pageCapacity) (hlru : pp.lruList = [])
    (writeOk : Bool) :
    pp.allocPage writeOk = (none, pp, []) := by
  simp only [PagePool.allocPage, hfree, hlru]
  rw [if_neg hcap]

theorem poolInv_allocFree {pp : PagePool} {fid : Nat} {rest : List Nat}
    (hinv : PoolInv pp) (h : pp.freeList = fid :: rest) :
    PoolInv (PagePool.mk pp.pageCapacity pp.pageCount
      (fun i => if i = fid then Page.addPin (pp.frame i) else pp.frame i)
      rest pp.lruList pp.pageMap) := by
  have hmem : fid ∈ pp.freeList := by
    rw [h]
    exact List.mem_cons_self fid rest
  have hlt : fid < pp.pageCount := hinv.free_lt fid hmem
  have hfacts := (hinv.free_iff fid hlt).mp hmem
  have hnrest : fid ∉ rest := by
    have := hinv.free_nodup
    rw [h] at this
    exact (List.nodup_cons.mp this).1
  have hrest_nodup : rest.Nodup := by
    have := hinv.free_nodup
    rw [h] at this
    exact (List.nodup_cons.mp this).2
  have hnl : fid ∉ pp.lruList := by
    intro hc
    exact absurd hfacts.2 ((hinv.lru_iff fid hlt).mp hc).2
  refine ⟨hinv.capacity, ?_, hinv.lru_lt, hrest_nodup, hinv.lru_nodup, ?_, ?_,
    hinv.map_keys_nodup, ?_, ?_, ?_⟩
  · intro g hg
    exact hinv.free_lt g (by rw [h]; exact List.mem_cons_of_mem fid hg)
  · intro g hg
    simp only [PagePool.frame_mk]
    by_cases hgf : g = fid
    · subst hgf
      simp only [ite_same_eq, ite_true, Page.addPin_pinCount, Page.addPin_assignment]
      constructor
      · intro hc
        exact absurd hc hnrest
      · rintro ⟨hc1, -⟩
        exact absurd hc1 (by omega)
    · simp only [if_neg hgf]
      constructor
      · intro hc
        exact (hinv.free_iff g hg).mp (by rw [h]; exact List.mem_cons_of_mem fid hc)
      · intro hc
        have hm := (hinv.free_iff g hg).mpr hc
        rw [h] at hm
        rcases List.mem_cons.mp hm with heq | hmem2
        · exact absurd heq hgf
        · exact hmem2
  · intro g hg
    simp only [PagePool.frame_mk]
    by_cases hgf : g = fid
    · subst hgf
      simp only [ite_same_eq, ite_true, Page.addPin_pinCount, Page.addPin_assignment]
      constructor
      · intro hc
        exact absurd hc hnl
      · rintro ⟨hc1, -⟩
        exact absurd hc1 (by omega)
    · simp only [if_neg hgf]
      exact hinv.lru_iff g hg
  · intro e he
    have h1 := hinv.map_sound e he
    have hef : e.2 ≠ fid := by
      intro hc
      rw [hc, hfacts.2] at h1
      exact Option.noConfusion h1.2
    refine ⟨h1.1, ?_⟩
    simp only [PagePool.frame_mk, if_neg hef]
    exact h1.2
  · intro g hg k hk
    simp only [PagePool.frame_mk] at hk
    by_cases hgf : g = fid
    · rw [if_pos hgf] at hk
      simp only [Page.addPin_assignment] at hk
      rw [hgf, hfacts.2] at hk
      exact Option.noConfusion hk
    · rw [if_neg hgf] at hk
      exact hinv.map_complete g hg k hk
  · intro g hg
    simp only [PagePool.frame_mk]
    by_cases hgf : g = fid
    · rw [if_pos hgf]
      simp only [Page.addPin_assignment, Page.addPin_dirty]
      rw [hgf]
      exact hinv.clean_unassigned fid hlt
    · rw [if_neg hgf]
      exact hinv.clean_unassigned g hg

theorem poolInv_allocGrow {pp : PagePool} (hinv : PoolInv pp)
    (hcap : pp.pageCount < pp.pageCapacity) :
    PoolInv (PagePool.mk pp.pageCapacity (pp.pageCount + 1)
      (fun i => if i = pp.pageCount then Page.create else pp.frame i)
      pp.freeList pp.lruList pp.pageMap) := by
  have hnf : pp.pageCount ∉ pp.freeList := by
    intro hc
    exact absurd (hinv.free_lt _ hc) (by omega)
  have hnl : pp.pageCount ∉ pp.lruList := by
    intro hc
    exact absurd (hinv.lru_lt _ hc) (by omega)
  refine ⟨show pp.pageCount + 1 ≤ pp.pageCapacity by omega, ?_, ?_,
    hinv.free_nodup, hinv.lru_nodup, ?_, ?_, hinv.map_keys_nodup, ?_, ?_, ?_⟩
  · intro g hg
    exact Nat.lt_succ_of_lt (hinv.free_lt g hg)
  · intro g hg
    exact Nat.lt_succ_of_lt (hinv.lru_lt g hg)
  · intro g hg
    have hg' : g < pp.pageCount + 1 := hg
    simp only [PagePool.frame_mk]
    by_cases hgc : g = pp.pageCount
    · subst hgc
      simp only [ite_same_eq, ite_true]
      constructor
      · intro hc
        exact absurd hc hnf
      · rintro ⟨hc1, -⟩
        simp [Page.create] at hc1
    · simp only [if_neg hgc]
      exact hinv.free_iff g (by omega)
  · intro g hg
    have hg' : g < pp.pageCount + 1 := hg
    simp only [PagePool.frame_mk]
    by_cases hgc : g = pp.pageCount
    · subst hgc
      simp only [ite_same_eq, ite_true]
      constructor
      · intro hc
        exact absurd hc hnl
      · rintro ⟨hc1, -⟩
        simp [Page.create] at hc1
    · simp only [if_neg hgc]
      exact hinv.lru_iff g (by omega)
  · intro e he
    have h1 := hinv.map_sound e he
    have h2 := h1.1
    have hec : e.2 ≠ pp.pageCount := by omega
    refine ⟨show e.2 < pp.pageCount + 1 by omega, ?_⟩
    simp only [PagePool.frame_mk, if_neg hec]
    exact h1.2
  · intro g hg k hk
    have hg' : g < pp.pageCount + 1 := hg
    simp only [PagePool.frame_mk] at hk
    by_cases hgc : g = pp.pageCount
    · rw [if_pos hgc] at hk
      simp [Page.create] at hk
    · rw [if_neg hgc] at hk
      exact hinv.map_complete g (by omega) k hk
  · intro g hg
    have hg' : g < pp.pageCount + 1 := hg
    simp only [PagePool.frame_mk]
    by_cases hgc : g = pp.pageCount
    · rw [if_pos hgc]
      intro _
      simp [Page.create]
    · rw [if_neg hgc]
      exact hinv.clean_unassigned g (by omega)

theorem allocPage_spec {pp : PagePool} (hinv : PoolInv pp) (writeOk : Bool) :
    PoolInv (pp.allocPage writeOk).2.1 ∧
    (pp.allocPage writeOk).2.1.pageCapacity = pp.pageCapacity ∧
    (∀ k, lookupKey pp.pageMap k = none →
      lookupKey (pp.allocPage writeOk).2.1.pageMap k = none) ∧
    ((pp.allocPage writeOk).1 = none → (pp.allocPage writeOk).2.1 = pp) ∧
    (∀ fid, (pp.allocPage writeOk).1 = some fid →
      fid < (pp.allocPage writeOk).2.1.pageCount ∧
      ((pp.allocPage writeOk).2.1.frame fid).pinCount = 1 ∧
      ((pp.allocPage writeOk).2.1.frame fid).assignment = none ∧
      ((pp.allocPage writeOk).2.1.frame fid).dirty = false) := by
  cases hfree : pp.freeList with
  | cons fid rest =>
    rw [allocPage_free hfree writeOk]
    have hmem : fid ∈ pp.freeList := by
      rw [hfree]
      exact List.mem_cons_self fid rest
    have hlt : fid < pp.pageCount := hinv.free_lt fid hmem
    have hfacts := (hinv.free_iff fid hlt).mp hmem
    have hclean := hinv.clean_unassigned fid hlt hfacts.2
    refine ⟨poolInv_allocFree hinv hfree, rfl, fun k hk => hk, ?_, ?_⟩
    · intro hc
      exact Option.noConfusion hc
    · intro g hg
      injection hg with hg
      subst hg
      refine ⟨hlt, ?_, ?_, ?_⟩
      · simp only [PagePool.frame_mk, ite_same_eq, ite_true, Page.addPin_pinCount]
        omega
      · simp only [PagePool.frame_mk, ite_same_eq, ite_true, Page.addPin_assignment]
        exact hfacts.2
      · simp only [PagePool.frame_mk, ite_same_eq, ite_true, Page.addPin_dirty]
        exact hclean
  | nil =>
    by_cases hcap : pp.pageCount < pp.pageCapacity
    · rw [allocPage_grow hfree hcap writeOk]
      refine ⟨poolInv_allocGrow hinv hcap, rfl, fun k hk => hk, ?_, ?_⟩
      · intro hc
        exact Option.noConfusion hc
      · intro g hg
        injection hg with hg
        subst hg

        refine ⟨Nat.lt_succ_self _, ?_, ?_, ?_⟩
        · simp only [PagePool.frame_mk, ite_same_eq, ite_true]
          simp [Page.create]
        · simp only [PagePool.frame_mk, ite_same_eq, ite_true]
          simp [Page.create]
        · simp only [PagePool.frame_mk, ite_same_eq, ite_true]
          simp [Page.create]
    · cases hlru : pp.lruList with
      | nil =>
        rw [allocPage_none hfree hcap hlru writeOk]
        refine ⟨hinv, rfl, fun k hk => hk, fun _ => rfl, ?_⟩
        intro g hg
        exact Option.noConfusion hg
      | cons fid rest =>
        rw [allocPage_evict hfree hcap hlru writeOk]
        have hmem : fid ∈ pp.lruList := by
          rw [hlru]
          exact List.mem_cons_self fid rest
        have hlt : fid < pp.pageCount := hinv.lru_lt fid hmem
        have hfacts := (hinv.lru_iff fid hlt).mp hmem
        obtain ⟨k, hasg⟩ : ∃ k, (pp.frame fid).assignment = some k := by
          cases hx : (pp.frame fid).assignment with
          | none => exact absurd hx hfacts.2
          | some k => exact ⟨k, rfl⟩
        have hUnp : (pp.frame fid).isUnpinned = true := by
          simp [hfacts.1]
        have hpp1 : ({ pp with lruList := rest } : PagePool).setFrame fid
            Page.addPin = pp.pinStorePage fid := by
          simp only [PagePool.pinStorePage]
          rw [if_pos hUnp, hlru, List.erase_cons_head]
        rw [hpp1]
        have hinv1 : PoolInv (pp.pinStorePage fid) :=
          poolInv_pinStorePage hinv hlt (by rw [hasg]; exact fun hc => Option.noConfusion hc)
        have hasg1 : ((pp.pinStorePage fid).frame fid).assignment = some k := by
          rw [pinStorePage_frame_assignment]
          exact hasg
        have hpin1 : 0 < ((pp.pinStorePage fid).frame fid).pinCount := by
          rw [pinStorePage_frame_pinCount_self]
          omega
        have hlt1 : fid < (pp.pinStorePage fid).pageCount := by
          rw [pinStorePage_pageCount]
          exact hlt
        refine ⟨poolInv_unassignPageFromStore hinv1 hlt1 hasg1 hpin1 writeOk,
          ?_, ?_, ?_, ?_⟩
        · rw [unassignPageFromStore_fst hasg1]
          exact pinStorePage_pageCapacity pp fid
        · intro k2 hk2
          rw [unassignPageFromStore_fst hasg1]
          have hk3 : lookupKey (pp.pinStorePage fid).pageMap k2 = none := by
            rw [pinStorePage_pageMap]
            exact hk2
          exact lookupKey_eq_none_of_eq_none hk3
        · intro hc
          exact Option.noConfusion hc
        · intro g hg
          injection hg with hg
          subst hg
          rw [unassignPageFromStore_fst hasg1]
          refine ⟨?_, ?_, ?_, ?_⟩
          · show fid < (pp.pinStorePage fid).pageCount
            exact hlt1
          · simp only [PagePool.frame_mk, ite_same_eq, ite_true,
              Page.doesNotCacheStoreData_pinCount]
            rw [pinStorePage_frame_pinCount_self]
            omega
          · simp only [PagePool.frame_mk, ite_same_eq, ite_true,
              Page.doesNotCacheStoreData_assignment]
          · simp only [PagePool.frame_mk, ite_same_eq, ite_true,
              Page.doesNotCacheStoreData_dirty]

theorem setFrame_setFrame (pp : PagePool) (fid : Nat) (f g : Page → Page) :
    (pp.setFrame fid f).setFrame fid g = pp.setFrame fid (fun p => g (f p)) := by
  show PagePool.mk _ _ _ _ _ _ = PagePool.mk _ _ _ _ _ _
  congr 1
  funext i
  by_cases h : i = fid
  · simp [PagePool.setFrame, h]
  · simp [PagePool.setFrame, h]

theorem assignPageToStore_fetch_ok (pp : PagePool) (fid s p : Nat) :
    pp.assignPageToStore fid s p PageFetchMode.kFetchPageData true =
      (Status.kSuccess, PagePool.mk pp.pageCapacity pp.pageCount
        (fun i => if i = fid then Page.willCacheStoreData (pp.frame i) s p
          else pp.frame i)
        pp.freeList pp.lruList (insertKey pp.pageMap (s, p) fid),
        [PoolEvent.readPage s p fid]) := by
  have hasg1 : ((pp.setFrame fid (fun f => f.willCacheStoreData s p)).frame
      fid).assignment = some (s, p) := by
    rw [PagePool.frame_setFrame_self]
    rfl
  simp only [PagePool.assignPageToStore, fetchStorePage_of_assigned hasg1]
  rfl

theorem assignPageToStore_fetch_fail (pp : PagePool) (fid s p : Nat) :
    pp.assignPageToStore fid s p PageFetchMode.kFetchPageData false =
      (Status.kIoError, pp.setFrame fid Page.doesNotCacheStoreData,
        [PoolEvent.readPage s p fid]) := by
  have hasg1 : ((pp.setFrame fid (fun f => f.willCacheStoreData s p)).frame
      fid).assignment = some (s, p) := by
    rw [PagePool.frame_setFrame_self]
    rfl
  simp only [PagePool.assignPageToStore, fetchStorePage_of_assigned hasg1]
  rw [setFrame_setFrame]
  rfl

theorem assignPageToStore_ignore (pp : PagePool) (fid s p : Nat) (readOk : Bool) :
    pp.assignPageToStore fid s p PageFetchMode.kIgnorePageData readOk =
      (Status.kSuccess, PagePool.mk pp.pageCapacity pp.pageCount
        (fun i => if i = fid then Page.willCacheStoreData (pp.frame i) s p
          else pp.frame i)
        pp.freeList pp.lruList (insertKey pp.pageMap (s, p) fid), []) := by
  simp only [PagePool.assignPageToStore, fetchStorePage_ignore]
  rfl

theorem poolInv_assignSuccess {pp : PagePool} {fid s p : Nat} (hinv : PoolInv pp)
    (hlt : fid < pp.pageCount) (hasg : (pp.frame fid).assignment = none)
    (hpin : 0 < (pp.frame fid).pinCount)
    (hlook : lookupKey pp.pageMap (s, p) = none) :
    PoolInv (PagePool.mk pp.pageCapacity pp.pageCount
      (fun i => if i = fid then Page.willCacheStoreData (pp.frame i) s p
        else pp.frame i)
      pp.freeList pp.lruList (insertKey pp.pageMap (s, p) fid)) := by
  have hnf : fid ∉ pp.freeList := notMem_free_of_pinned hinv hlt hpin
  have hnl : fid ∉ pp.lruList := notMem_lru_of_pinned hinv hlt hpin
  refine ⟨hinv.capacity, hinv.free_lt, hinv.lru_lt, hinv.free_nodup,
    hinv.lru_nodup, ?_, ?_, keys_nodup_insertKey hinv.map_keys_nodup, ?_, ?_, ?_⟩
  · intro g hg
    simp only [PagePool.frame_mk]
    by_cases hgf : g = fid
    · subst hgf
      simp only [ite_same_eq, ite_true, Page.willCacheStoreData_pinCount,
        Page.willCacheStoreData_assignment]
      constructor
      · intro hc
        exact absurd hc hnf
      · rintro ⟨hc1, -⟩
        exact absurd hc1 (by omega)
    · simp only [if_neg hgf]
      exact hinv.free_iff g hg
  · intro g hg
    simp only [PagePool.frame_mk]
    by_cases hgf : g = fid
    · subst hgf
      simp only [ite_same_eq, ite_true, Page.willCacheStoreData_pinCount,
        Page.willCacheStoreData_assignment]
      constructor
      · intro hc
        exact absurd hc hnl
      · rintro ⟨hc1, -⟩
        exact absurd hc1 (by omega)
    · simp only [if_neg hgf]
      exact hinv.lru_iff g hg
  · intro e he
    rcases mem_insertKey.mp he with heq | ⟨hmem, hne⟩
    · subst heq
      refine ⟨hlt, ?_⟩
      simp only [PagePool.frame_mk, ite_same_eq, ite_true,
        Page.willCacheStoreData_assignment]
    · have h1 := hinv.map_sound e hmem
      have hef : e.2 ≠ fid := by
        intro hc
        rw [hc, hasg] at h1
        exact Option.noConfusion h1.2
      refine ⟨h1.1, ?_⟩
      simp only [PagePool.frame_mk, if_neg hef]
      exact h1.2
  · intro g hg k hk
    simp only [PagePool.frame_mk] at hk
    by_cases hgf : g = fid
    · rw [if_pos hgf] at hk
      simp only [Page.willCacheStoreData_assignment] at hk
      injection hk with hk
      subst hk
      rw [← hgf]
      exact mem_insertKey.mpr (Or.inl rfl)
    · rw [if_neg hgf] at hk
      have hmem := hinv.map_complete g hg k hk
      refine mem_insertKey.mpr (Or.inr ⟨hmem, ?_⟩)
      intro hc
      rw [show ((k, g) : (Nat × Nat) × Nat).1 = k from rfl] at hc
      subst hc
      rw [lookupKey_eq_none_iff] at hlook
      exact hlook g hmem
  · intro g hg
    simp only [PagePool.frame_mk]
    by_cases hgf : g = fid
    · rw [if_pos hgf]
      simp only [Page.willCacheStoreData_assignment]
      intro hc
      exact Option.noConfusion hc
    · rw [if_neg hgf]
      exact hinv.clean_unassigned g hg

theorem poolInv_assignFail {pp : PagePool} {fid : Nat} (hinv : PoolInv pp)
    (hlt : fid < pp.pageCount) (hasg : (pp.frame fid).assignment = none)
    (hpin : 0 < (pp.frame fid).pinCount) :
    PoolInv (pp.setFrame fid Page.doesNotCacheStoreData) := by
  have hnf : fid ∉ pp.freeList := notMem_free_of_pinned hinv hlt hpin
  have hnl : fid ∉ pp.lruList := notMem_lru_of_pinned hinv hlt hpin
  have hstate : pp.setFrame fid Page.doesNotCacheStoreData = PagePool.mk
      pp.pageCapacity pp.pageCount
      (fun i => if i = fid then Page.doesNotCacheStoreData (pp.frame i)
        else pp.frame i)
      pp.freeList pp.lruList pp.pageMap := rfl
  rw [hstate]
  refine ⟨hinv.capacity, hinv.free_lt, hinv.lru_lt, hinv.free_nodup,
    hinv.lru_nodup, ?_, ?_, hinv.map_keys_nodup, ?_, ?_, ?_⟩
  · intro g hg
    simp only [PagePool.frame_mk]
    by_cases hgf : g = fid
    · subst hgf
      simp only [ite_same_eq, ite_true, Page.doesNotCacheStoreData_pinCount,
        Page.doesNotCacheStoreData_assignment]
      constructor
      · intro hc
        exact absurd hc hnf
      · rintro ⟨hc1, -⟩
        exact absurd hc1 (by omega)
    · simp only [if_neg hgf]
      exact hinv.free_iff g hg
  · intro g hg
    simp only [PagePool.frame_mk]
    by_cases hgf : g = fid
    · subst hgf
      simp only [ite_same_eq, ite_true, Page.doesNotCacheStoreData_pinCount,
        Page.doesNotCacheStoreData_assignment]
      constructor
      · intro hc
        exact absurd hc hnl
      · rintro ⟨hc1, -⟩
        exact absurd hc1 (by omega)
    · simp only [if_neg hgf]
      exact hinv.lru_iff g hg
  · intro e he
    have h1 := hinv.map_sound e he
    have hef : e.2 ≠ fid := by
      intro hc
      rw [hc, hasg] at h1
      exact Option.noConfusion h1.2
    refine ⟨h1.1, ?_⟩
    simp only [PagePool.frame_mk, if_neg hef]
    exact h1.2
  · intro g hg k hk
    simp only [PagePool.frame_mk] at hk
    by_cases hgf : g = fid
    · rw [if_pos hgf] at hk
      simp only [Page.doesNotCacheStoreData_assignment] at hk
      exact Option.noConfusion hk
    · rw [if_neg hgf] at hk
      exact hinv.map_complete g hg k hk
  · intro g hg
    simp only [PagePool.frame_mk]
    by_cases hgf : g = fid
    · rw [if_pos hgf]
      intro _
      simp only [Page.doesNotCacheStoreData_dirty]
    · rw [if_neg hgf]
      exact hinv.clean_unassigned g hg

theorem storePage_hit {pp : PagePool} {s p fid : Nat}
    (h : lookupKey pp.pageMap (s, p) = some fid) (fm : PageFetchMode)
    (readOk writeOk : Bool) :
    pp.storePage s p fm readOk writeOk =
      (Status.kSuccess, some fid, pp.pinStorePage fid, []) := by
  simp only [PagePool.storePage, h]

theorem storePage_full {pp pp1 : PagePool} {s p : Nat} {ev : List PoolEvent}
    (hlook : lookupKey pp.pageMap (s, p) = none) (fm : PageFetchMode)
    (readOk : Bool) {writeOk : Bool}
    (halloc : pp.allocPage writeOk = (none, pp1, ev)) :
    pp.storePage s p fm readOk writeOk = (Status.kPoolFull, none, pp1, ev) := by
  simp only [PagePool.storePage, hlook, halloc]

theorem storePage_miss {pp pp1 : PagePool} {s p fid : Nat} {ev : List PoolEvent}
    (hlook : lookupKey pp.pageMap (s, p) = none) (fm : PageFetchMode)
    (readOk : Bool) {writeOk : Bool}
    (halloc : pp.allocPage writeOk = (some fid, pp1, ev)) :
    pp.storePage s p fm readOk writeOk =
      (if (pp1.assignPageToStore fid s p fm readOk).1 = Status.kSuccess then
        (Status.kSuccess, some fid, (pp1.assignPageToStore fid s p fm readOk).2.1,
          ev ++ (pp1.assignPageToStore fid s p fm readOk).2.2)
      else
        ((pp1.assignPageToStore fid s p fm readOk).1, none,
          (pp1.assignPageToStore fid s p fm readOk).2.1.unpinUnassignedPage fid,
          ev ++ (pp1.assignPageToStore fid s p fm readOk).2.2)) := by
  simp only [PagePool.storePage, hlook, halloc]

theorem poolInv_storePage {pp : PagePool} (hinv : PoolInv pp) (s p : Nat)
    (fm : PageFetchMode) (readOk writeOk : Bool) :
    PoolInv (pp.storePage s p fm readOk writeOk).2.2.1 := by
  cases hlook : lookupKey pp.pageMap (s, p) with
  | some fid =>
    rw [storePage_hit hlook fm readOk writeOk]
    have hmem := mem_of_lookupKey_eq_some hlook
    have hs := hinv.map_sound _ hmem
    exact poolInv_pinStorePage hinv hs.1
      (by rw [hs.2]; exact fun hc => Option.noConfusion hc)
  | none =>
    have hspec := allocPage_spec hinv writeOk
    rcases halloc : pp.allocPage writeOk with ⟨o, pp1, ev⟩
    rw [halloc] at hspec
    obtain ⟨hinv1, -, hlook1, hnone, hsome⟩ := hspec
    cases o with
    | none =>
      rw [storePage_full hlook fm readOk halloc]
      have heq : pp1 = pp := hnone rfl
      rw [show (Status.kPoolFull, (none : Option Nat), pp1, ev).2.2.1 = pp1 from rfl,
        heq]
      exact hinv
    | some fid =>
      rw [storePage_miss hlook fm readOk halloc]
      obtain ⟨hfl, hfp, hfa, hfd⟩ := hsome fid rfl
      have hlk1 : lookupKey pp1.pageMap (s, p) = none := hlook1 (s, p) hlook
      have hfp2 : (pp1.frame fid).pinCount = 1 := hfp
      have hfp' : 0 < (pp1.frame fid).pinCount := by omega
      cases fm with
      | kIgnorePageData =>
        rw [assignPageToStore_ignore pp1 fid s p readOk]
        exact poolInv_assignSuccess hinv1 hfl hfa hfp' hlk1
      | kFetchPageData =>
        cases readOk with
        | true =>
          rw [assignPageToStore_fetch_ok pp1 fid s p]
          exact poolInv_assignSuccess hinv1 hfl hfa hfp' hlk1
        | false =>
          rw [assignPageToStore_fetch_fail pp1 fid s p]
          refine poolInv_unpinUnassignedPage (poolInv_assignFail hinv1 hfl hfa hfp')
            (show fid < (pp1.setFrame fid Page.doesNotCacheStoreData).pageCount
              from hfl) ?_ ?_
          · rw [PagePool.frame_setFrame_self]
            rfl
          · rw [PagePool.frame_setFrame_self]
            simp only [Page.doesNotCacheStoreData_pinCount]
            exact hfp'

theorem poolInv_pinTransactionPages {pp : PagePool} (hinv : PoolInv pp)
    {fids : List Nat}
    (h : ∀ fid ∈ fids, fid < pp.pageCount ∧ (pp.frame fid).assignment ≠ none) :
    PoolInv (pp.pinTransactionPages fids) := by
  induction fids generalizing pp with
  | nil => exact hinv
  | cons fid rest ih =>
    have h1 := h fid (List.mem_cons_self fid rest)
    have hstep : PoolInv (pp.pinStorePage fid) :=
      poolInv_pinStorePage hinv h1.1 h1.2
    show PoolInv ((pp.pinStorePage fid).pinTransactionPages rest)
    refine ih hstep ?_
    intro g hg
    have h2 := h g (List.mem_cons_of_mem fid hg)
    refine ⟨?_, ?_⟩
    · rw [pinStorePage_pageCount]
      exact h2.1
    · rw [pinStorePage_frame_assignment]
      exact h2.2

/-- All eleven invariant clauses hold in every reachable pool state. -/
theorem poolInv_reachable {pp : PagePool} (h : PagePool.Reachable pp) :
    PoolInv pp := by
  induction h with
  | init cap =>
    exact ⟨Nat.zero_le cap, by simp [PagePool.init], by simp [PagePool.init],
      by simp [PagePool.init], by simp [PagePool.init],
      by intro g hg; simp [PagePool.init] at hg,
      by intro g hg; simp [PagePool.init] at hg,
      by simp [PagePool.init],
      by intro e he; simp [PagePool.init] at he,
      by intro g hg; simp [PagePool.init] at hg,
      by intro g hg; simp [PagePool.init] at hg⟩
  | step _ hstep ih =>
    cases hstep with
    | storePage s p fm readOk writeOk => exact poolInv_storePage ih s p fm readOk writeOk
    | unpinStorePage fid hlt hasg hpin => exact poolInv_unpinStorePage ih hlt hasg hpin
    | unpinUnassignedPage fid hlt hasg hpin =>
      exact poolInv_unpinUnassignedPage ih hlt hasg hpin
    | pinTransactionPages fids hpre => exact poolInv_pinTransactionPages ih hpre
    | allocPage writeOk => exact (allocPage_spec ih writeOk).1
    | markDirty fid hlt hasg hpin => exact poolInv_markDirty ih hlt hasg

theorem lookupKey_insertKey_self (m : List ((Nat × Nat) × Nat)) (k : Nat × Nat)
    (v : Nat) : lookupKey (insertKey m k v) k = some v := by
  simp [insertKey, lookupKey]

theorem nat_list_sum_zero {l : List Nat} (h : l.sum = 0) : ∀ x ∈ l, x = 0 := by
  induction l with
  | nil => intro x hx; simp at hx
  | cons a rest ih =>
    rw [List.sum_cons] at h
    intro x hx
    rcases List.mem_cons.mp hx with rfl | hx2
    · omega
    · exact ih (by omega) x hx2

theorem totalPinCount_zero {pp : PagePool} (h : pp.totalPinCount = 0) :
    ∀ fid, fid < pp.pageCount → (pp.frame fid).pinCount = 0 := by
  intro fid hlt
  refine nat_list_sum_zero h ((pp.frames fid).pinCount) ?_
  exact List.mem_map_of_mem _ (List.mem_range.mpr hlt)

theorem poolInv_demoPool : PoolInv demoPool := by
  refine ⟨?_, ?_, ?_, ?_, ?_, ?_, ?_, ?_, ?_, ?_, ?_⟩
  · decide
  · decide
  · decide
  · decide
  · decide
  · decide
  · decide
  · decide
  · decide
  · intro fid hfid k hk
    have hfid' : fid < 1 := hfid
    have hf0 : fid = 0 := by omega
    subst hf0
    simp [demoPool, PagePool.frame] at hk
    subst hk
    simp [demoPool]
  · decide

/-- C1: in every pool state reachable from a fresh pool by public operations,
a frame is on the free list exactly when it is unpinned and unassigned, on
the LRU list exactly when it is unpinned and assigned, and on no list while
pinned; the resident map maps (store, page-id) to a frame exactly when that
frame's assignment is that key, and no two frames share an assignment. -/
theorem claim1_reachable_invariant (pp : PagePool) (h : PagePool.Reachable pp) :
    (∀ fid, fid < pp.pageCount →
      ((fid ∈ pp.freeList ↔
          (pp.frame fid).pinCount = 0 ∧ (pp.frame fid).assignment = none) ∧
       (fid ∈ pp.lruList ↔
          (pp.frame fid).pinCount = 0 ∧ (pp.frame fid).assignment ≠ none) ∧
       (0 < (pp.frame fid).pinCount →
          fid ∉ pp.freeList ∧ fid ∉ pp.lruList))) ∧
    (∀ s p fid, lookupKey pp.pageMap (s, p) = some fid ↔
      fid < pp.pageCount ∧ (pp.frame fid).assignment = some (s, p)) ∧
    (∀ f g k, f < pp.pageCount → g < pp.pageCount →
      (pp.frame f).assignment = some k → (pp.frame g).assignment = some k →
      f = g) := by
  have hinv := poolInv_reachable h
  refine ⟨?_, ?_, ?_⟩
  · intro fid hlt
    refine ⟨hinv.free_iff fid hlt, hinv.lru_iff fid hlt, ?_⟩
    intro hpin
    exact ⟨notMem_free_of_pinned hinv hlt hpin, notMem_lru_of_pinned hinv hlt hpin⟩
  · intro s p fid
    constructor
    · intro hl
      exact hinv.map_sound _ (mem_of_lookupKey_eq_some hl)
    · rintro ⟨hlt, hasg⟩
      exact lookupKey_eq_some_of_mem hinv.map_keys_nodup
        (hinv.map_complete fid hlt _ hasg)
  · intro f g k hf hg hkf hkg
    exact key_unique hinv.map_keys_nodup (hinv.map_complete f hf k hkf)
      (hinv.map_complete g hg k hkg)

/-- Witness for C1 at the concrete reachable state `demoReached`. -/
theorem claim1_reachable_invariant_witness :
    PagePool.Reachable demoReached ∧
    (lookupKey demoReached.pageMap (0, 5) = some 0 ↔
      0 < demoReached.pageCount ∧
      (demoReached.frame 0).assignment = some (0, 5)) := by
  have hreach : PagePool.Reachable demoReached :=
    PagePool.Reachable.step (PagePool.Reachable.init 1)
      (PagePool.Step.storePage (PagePool.init 1) 0 5
        PageFetchMode.kIgnorePageData true true)
  exact ⟨hreach, (claim1_reachable_invariant demoReached hreach).2.1 0 5 0⟩

/-- C2: when a `StorePage` miss evicts a dirty LRU victim and the write-back
fails, the pool still emits `UnassignPersistedPage` and `Close` on the
victim's store, swallows the write error, and returns `kSuccess` with a
pinned frame assigned to the newly requested key (read of the new page
succeeding, per spec scenario 6). -/
theorem claim2_writeback_failure_isolated {pp : PagePool}
    {fid s1 p1 s2 p2 : Nat} {rest : List Nat}
    (hlook : lookupKey pp.pageMap (s2, p2) = none)
    (hfree : pp.freeList = [])
    (hcap : ¬pp.pageCount < pp.pageCapacity)
    (hlru : pp.lruList = fid :: rest)
    (hdirty : (pp.frame fid).dirty = true)
    (hasg : (pp.frame fid).assignment = some (s1, p1))
    (fm : PageFetchMode) (readOk : Bool)
    (hfetch : fm = PageFetchMode.kIgnorePageData ∨ readOk = true) :
    (pp.storePage s2 p2 fm readOk false).1 = Status.kSuccess ∧
    (pp.storePage s2 p2 fm readOk false).2.1 = some fid ∧
    0 < (((pp.storePage s2 p2 fm readOk false).2.2.1).frame fid).pinCount ∧
    (((pp.storePage s2 p2 fm readOk false).2.2.1).frame fid).assignment =
      some (s2, p2) ∧
    lookupKey ((pp.storePage s2 p2 fm readOk false).2.2.1).pageMap (s2, p2) =
      some fid ∧
    PoolEvent.writePage s1 p1 fid ∈ (pp.storePage s2 p2 fm readOk false).2.2.2 ∧
    PoolEvent.unassignPersistedPage fid ∈
      (pp.storePage s2 p2 fm readOk false).2.2.2 ∧
    PoolEvent.closeStore s1 ∈ (pp.storePage s2 p2 fm readOk false).2.2.2 := by
  have halloc := allocPage_evict hfree hcap hlru false
  have hasg1 : ((({ pp with lruList := rest } : PagePool).setFrame fid
      Page.addPin).frame fid).assignment = some (s1, p1) := by
    rw [PagePool.frame_setFrame_self]
    simp only [Page.addPin_assignment]
    exact hasg
  have hdirty1 : ((({ pp with lruList := rest } : PagePool).setFrame fid
      Page.addPin).frame fid).dirty = true := by
    rw [PagePool.frame_setFrame_self]
    simp only [Page.addPin_dirty]
    exact hdirty
  have hEV : ((({ pp with lruList := rest } : PagePool).setFrame fid
      Page.addPin).unassignPageFromStore fid false).2 =
      [PoolEvent.writePage s1 p1 fid, PoolEvent.unassignPersistedPage fid,
        PoolEvent.closeStore s1] := by
    rw [unassignPageFromStore_snd_dirty hasg1 hdirty1 false]
    rfl
  have hPP1 := unassignPageFromStore_fst hasg1 false
  have hpinPP1 : (((({ pp with lruList := rest } : PagePool).setFrame fid
      Page.addPin).unassignPageFromStore fid false).1.frame fid).pinCount =
      (pp.frame fid).pinCount + 1 := by
    rw [hPP1]
    simp only [PagePool.frame_mk, ite_same_eq, Page.doesNotCacheStoreData_pinCount]
    rw [PagePool.frame_setFrame_self]
    rfl
  have hasgPP1 : (((({ pp with lruList := rest } : PagePool).setFrame fid
      Page.addPin).unassignPageFromStore fid false).1.frame fid).assignment =
      none := by
    rw [hPP1]
    simp only [PagePool.frame_mk, ite_same_eq, Page.doesNotCacheStoreData_assignment]
    rfl
  rcases hfetch with hfm | hro
  · subst hfm
    rw [storePage_miss hlook PageFetchMode.kIgnorePageData readOk halloc,
      assignPageToStore_ignore]
    refine ⟨rfl, rfl, ?_, ?_, ?_, ?_, ?_, ?_⟩
    · show 0 < ((if fid = fid then _ else _ : Page)).pinCount
      rw [ite_same_eq]
      simp only [Page.willCacheStoreData_pinCount]
      rw [hpinPP1]
      omega
    · show ((if fid = fid then _ else _ : Page)).assignment = some (s2, p2)
      rw [ite_same_eq]
      rfl
    · exact lookupKey_insertKey_self _ _ _
    · show PoolEvent.writePage s1 p1 fid ∈ _ ++ _
      rw [hEV]
      simp
    · show PoolEvent.unassignPersistedPage fid ∈ _ ++ _
      rw [hEV]
      simp
    · show PoolEvent.closeStore s1 ∈ _ ++ _
      rw [hEV]
      simp
  · cases fm with
    | kIgnorePageData =>
      rw [storePage_miss hlook PageFetchMode.kIgnorePageData readOk halloc,
        assignPageToStore_ignore]
      refine ⟨rfl, rfl, ?_, ?_, ?_, ?_, ?_, ?_⟩
      · show 0 < ((if fid = fid then _ else _ : Page)).pinCount
        rw [ite_same_eq]
        simp only [Page.willCacheStoreData_pinCount]
        rw [hpinPP1]
        omega
      · show ((if fid = fid then _ else _ : Page)).assignment = some (s2, p2)
        rw [ite_same_eq]
        rfl
      · exact lookupKey_insertKey_self _ _ _
      · show PoolEvent.writePage s1 p1 fid ∈ _ ++ _
        rw [hEV]
        simp
      · show PoolEvent.unassignPersistedPage fid ∈ _ ++ _
        rw [hEV]
        simp
      · show PoolEvent.closeStore s1 ∈ _ ++ _
        rw [hEV]
        simp
    | kFetchPageData =>
      subst hro
      rw [storePage_miss hlook PageFetchMode.kFetchPageData true halloc,
        assignPageToStore_fetch_ok]
      refine ⟨rfl, rfl, ?_, ?_, ?_, ?_, ?_, ?_⟩
      · show 0 < ((if fid = fid then _ else _ : Page)).pinCount
        rw [ite_same_eq]
        simp only [Page.willCacheStoreData_pinCount]
        rw [hpinPP1]
        omega
      · show ((if fid = fid then _ else _ : Page)).assignment = some (s2, p2)
        rw [ite_same_eq]
        rfl
      · exact lookupKey_insertKey_self _ _ _
      · show PoolEvent.writePage s1 p1 fid ∈ _ ++ _
        rw [hEV]
        simp
      · show PoolEvent.unassignPersistedPage fid ∈ _ ++ _
        rw [hEV]
        simp
      · show PoolEvent.closeStore s1 ∈ _ ++ _
        rw [hEV]
        simp

/-- Witness for C2 at the dirty one-frame pool `demoPool`. -/
theorem claim2_writeback_failure_isolated_witness :
    (demoPool.storePage 0 2 PageFetchMode.kFetchPageData true false).1 =
      Status.kSuccess ∧
    PoolEvent.closeStore 0 ∈
      (demoPool.storePage 0 2 PageFetchMode.kFetchPageData true false).2.2.2 := by
  have h := @claim2_writeback_failure_isolated demoPool 0 0 1 0 2 []
    (by decide) rfl (by decide) rfl (by decide) (by decide)
    PageFetchMode.kFetchPageData true (Or.inr rfl)
  exact ⟨h.1, h.2.2.2.2.2.2.2⟩

/-- C3: with the free list empty, the page count at capacity and the LRU
list empty, a `StorePage` miss returns `kPoolFull` and the state — every
frame, the resident map, and both lists — is exactly unchanged. -/
theorem claim3_poolFull_no_mutation {pp : PagePool} {s p : Nat}
    (hlook : lookupKey pp.pageMap (s, p) = none)
    (hfree : pp.freeList = []) (hlru : pp.lruList = [])
    (hcap : pp.pageCount = pp.pageCapacity)
    (fm : PageFetchMode) (readOk writeOk : Bool) :
    pp.storePage s p fm readOk writeOk = (Status.kPoolFull, none, pp, []) := by
  have hcap' : ¬pp.pageCount < pp.pageCapacity := by omega
  exact storePage_full hlook fm readOk (allocPage_none hfree hcap' hlru writeOk)

/-- Witness for C3 at the fully pinned one-frame pool `pinnedPool`. -/
theorem claim3_poolFull_no_mutation_witness :
    pinnedPool.storePage 0 2 PageFetchMode.kFetchPageData true true =
      (Status.kPoolFull, none, pinnedPool, []) :=
  claim3_poolFull_no_mutation (by decide) rfl rfl (by decide)
    PageFetchMode.kFetchPageData true true

/-- C7 (evaluation): after `UnpinUnassignedFrame` frees frame 0 and then
frame 1, the free list reads `[0, 1]` (frame freed first at the front) and
`AllocPage` reuses frame 0 — the least-recently freed frame.  The free list
behaves as a FIFO queue (`push_back` paired with `pop_front`), not the LIFO
stack the claim (and the comment in `AllocPage`) describes, which would
reuse frame 1 first. -/
theorem claim7_free_list_fifo_eval :
    ((rawPairPool.unpinUnassignedPage 0).unpinUnassignedPage 1).freeList =
      [0, 1] ∧
    (((rawPairPool.unpinUnassignedPage 0).unpinUnassignedPage 1).allocPage
      true).1 = some 0 ∧
    (((rawPairPool.unpinUnassignedPage 0).unpinUnassignedPage 1).allocPage
      true).1 ≠ some 1 := by
  decide

/-- C8: unassigning a dirty frame emits the `WritePage` call for the old
(store, page-id) key, and no resident-map lookup available to the caller
after the operation (the only observation points, since the pool is
single-threaded) can still see the old key; the frame itself ends
unassigned. -/
theorem claim8_writeback_before_map_removal {pp : PagePool} {fid s p : Nat}
    (hasg : (pp.frame fid).assignment = some (s, p))
    (hdirty : (pp.frame fid).dirty = true) (writeOk : Bool) :
    PoolEvent.writePage s p fid ∈ (pp.unassignPageFromStore fid writeOk).2 ∧
    lookupKey ((pp.unassignPageFromStore fid writeOk).1).pageMap (s, p) =
      none ∧
    (((pp.unassignPageFromStore fid writeOk).1).frame fid).assignment =
      none := by
  refine ⟨?_, ?_, ?_⟩
  · rw [unassignPageFromStore_snd_dirty hasg hdirty writeOk]
    simp
  · rw [unassignPageFromStore_fst hasg]
    exact lookupKey_eraseKey_self _ _
  · rw [unassignPageFromStore_fst hasg]
    simp only [PagePool.frame_mk, ite_same_eq, Page.doesNotCacheStoreData_assignment]
    rfl

/-- Witness for C8 at `demoPool` with a failing write. -/
theorem claim8_writeback_before_map_removal_witness :
    PoolEvent.writePage 0 1 0 ∈ (demoPool.unassignPageFromStore 0 false).2 ∧
    lookupKey ((demoPool.unassignPageFromStore 0 false).1).pageMap (0, 1) =
      none := by
  have h := @claim8_writeback_before_map_removal demoPool 0 0 1
    (by decide) (by decide) false
  exact ⟨h.1, h.2.1⟩

/-- C10: the libc VFS only produces `kSuccess` or `kIoError` from its open
entry points — a null `fopen` result (including a missing file opened with
`create_if_missing = false`) is reported as `kIoError`, never `kNotFound` —
and `BlockAccessFile::Lock` returns `kSuccess` unconditionally without
taking any lock (the model has no lock state because the code performs no
locking call). -/
theorem claim10_libc_vfs_statuses :
    (∀ (fopenOk fseekOk : Bool) (fileSize : Nat),
      ((openForRandomAccess fopenOk fseekOk fileSize).1 = Status.kSuccess ∨
        (openForRandomAccess fopenOk fseekOk fileSize).1 = Status.kIoError) ∧
      ((openForBlockAccess fopenOk fseekOk fileSize).1 = Status.kSuccess ∨
        (openForBlockAccess fopenOk fseekOk fileSize).1 = Status.kIoError)) ∧
    (∀ (fseekOk : Bool) (fileSize : Nat),
      openForRandomAccess false fseekOk fileSize = (Status.kIoError, none) ∧
      openForBlockAccess false fseekOk fileSize = (Status.kIoError, none)) ∧
    libcBlockAccessFileLock = Status.kSuccess := by
  refine ⟨?_, ?_, rfl⟩
  · intro fopenOk fseekOk fileSize
    cases fopenOk <;> cases fseekOk <;>
      simp [openForRandomAccess, openForBlockAccess, openLibcFile]
  · intro fseekOk fileSize
    cases fseekOk <;>
      simp [openForRandomAccess, openForBlockAccess, openLibcFile]

/-- C4 counterexample: on the one-frame pool `demoPool` a `FetchData` miss
for (0, 2) whose read fails returns `kIoError`, but the state visibly
changed beyond the failed I/O: the previously resident page (0, 1) was
evicted from the resident map by the allocation, so the conjunct "no
observable state change beyond the failed I/O" is false. -/
theorem claim4_counterexample :
    (demoPool.storePage 0 2 PageFetchMode.kFetchPageData false true).1 =
      Status.kIoError ∧
    lookupKey demoPool.pageMap (0, 1) = some 0 ∧
    lookupKey ((demoPool.storePage 0 2 PageFetchMode.kFetchPageData false
      true).2.2.1).pageMap (0, 1) = none := by
  decide

/-- C4 as amended: a `FetchData` miss whose read fails surfaces `kIoError`,
returns no frame, and leaves the allocated frame unpinned, unassigned and on
the free list, with the requested key absent from the resident map — but the
side effects of the allocation itself (possible eviction of an LRU victim,
pool growth, free-list reordering) persist. -/
theorem claim4_fetch_failure_frame_freed {pp : PagePool} {s p fid : Nat}
    (hinv : PoolInv pp)
    (hlook : lookupKey pp.pageMap (s, p) = none) (writeOk : Bool)
    (halloc : (pp.allocPage writeOk).1 = some fid) :
    (pp.storePage s p PageFetchMode.kFetchPageData false writeOk).1 =
      Status.kIoError ∧
    (pp.storePage s p PageFetchMode.kFetchPageData false writeOk).2.1 =
      none ∧
    (((pp.storePage s p PageFetchMode.kFetchPageData false
      writeOk).2.2.1).frame fid).pinCount = 0 ∧
    (((pp.storePage s p PageFetchMode.kFetchPageData false
      writeOk).2.2.1).frame fid).assignment = none ∧
    fid ∈ ((pp.storePage s p PageFetchMode.kFetchPageData false
      writeOk).2.2.1).freeList ∧
    lookupKey ((pp.storePage s p PageFetchMode.kFetchPageData false
      writeOk).2.2.1).pageMap (s, p) = none := by
  have hspec := allocPage_spec hinv writeOk
  rcases hA : pp.allocPage writeOk with ⟨o, pp1, ev⟩
  rw [hA] at hspec halloc
  obtain ⟨hinv1, -, hlook1, -, hsome⟩ := hspec
  have ho : o = some fid := halloc
  subst ho
  obtain ⟨hfl, hfp, hfa, hfd⟩ := hsome fid rfl
  have hfp' : (pp1.frame fid).pinCount = 1 := hfp
  have hlk1 : lookupKey pp1.pageMap (s, p) = none := hlook1 (s, p) hlook
  rw [storePage_miss hlook PageFetchMode.kFetchPageData false hA,
    assignPageToStore_fetch_fail]
  have hcond : (((pp1.setFrame fid Page.doesNotCacheStoreData).setFrame fid
      Page.removePin).frame fid).isUnpinned = true := by
    rw [PagePool.frame_setFrame_self, PagePool.frame_setFrame_self]
    simp only [Page.isUnpinned_iff, Page.removePin_pinCount,
      Page.doesNotCacheStoreData_pinCount]
    omega
  have hunpin : (pp1.setFrame fid
      Page.doesNotCacheStoreData).unpinUnassignedPage fid =
      PagePool.mk pp1.pageCapacity pp1.pageCount
        (fun i => if i = fid then
          Page.removePin ((pp1.setFrame fid Page.doesNotCacheStoreData).frame i)
          else (pp1.setFrame fid Page.doesNotCacheStoreData).frame i)
        (pp1.freeList ++ [fid]) pp1.lruList pp1.pageMap := by
    simp only [PagePool.unpinUnassignedPage]
    rw [if_pos hcond]
    rfl
  refine ⟨rfl, rfl, ?_, ?_, ?_, ?_⟩
  · show (((pp1.setFrame fid Page.doesNotCacheStoreData).unpinUnassignedPage
      fid).frame fid).pinCount = 0
    rw [hunpin]
    simp only [PagePool.frame_mk, ite_same_eq, ite_true, Page.removePin_pinCount]
    rw [PagePool.frame_setFrame_self]
    simp only [Page.doesNotCacheStoreData_pinCount]
    omega
  · show (((pp1.setFrame fid Page.doesNotCacheStoreData).unpinUnassignedPage
      fid).frame fid).assignment = none
    rw [hunpin]
    simp only [PagePool.frame_mk, ite_same_eq, ite_true, Page.removePin_assignment]
    rw [PagePool.frame_setFrame_self]
    simp only [Page.doesNotCacheStoreData_assignment]
  · show fid ∈ ((pp1.setFrame fid Page.doesNotCacheStoreData).unpinUnassignedPage
      fid).freeList
    rw [hunpin]
    simp
  · show lookupKey ((pp1.setFrame fid Page.doesNotCacheStoreData
      ).unpinUnassignedPage fid).pageMap (s, p) = none
    rw [hunpin]
    exact hlk1

/-- Witness for the amended C4 at `demoPool`. -/
theorem claim4_fetch_failure_frame_freed_witness :
    (demoPool.storePage 0 2 PageFetchMode.kFetchPageData false true).1 =
      Status.kIoError ∧
    0 ∈ ((demoPool.storePage 0 2 PageFetchMode.kFetchPageData false
      true).2.2.1).freeList := by
  have h := @claim4_fetch_failure_frame_freed demoPool 0 2 0 poolInv_demoPool
    (by decide) true (by decide)
  exact ⟨h.1, h.2.2.2.2.1⟩

/-- C5: `AllocPage` tries, in order: pop the free-list front (a frame that
is unassigned and clean, returned with one more pin); grow while below
capacity (the new frame is `Page::Create`'s born-pinned unassigned frame);
evict the LRU front (returned pinned, unassigned, its old resident-map key
erased); otherwise fail with no state change.  Consequently the number of
frames created never exceeds `page_capacity` in any reachable state. -/
theorem claim5_allocPage_decision_tree {pp : PagePool} (hinv : PoolInv pp)
    (writeOk : Bool) :
    (∀ fid rest, pp.freeList = fid :: rest →
      (pp.allocPage writeOk).1 = some fid ∧
      (pp.frame fid).assignment = none ∧ (pp.frame fid).dirty = false ∧
      ((pp.allocPage writeOk).2.1.frame fid).pinCount =
        (pp.frame fid).pinCount + 1 ∧
      (pp.allocPage writeOk).2.1.freeList = rest ∧
      (pp.allocPage writeOk).2.1.pageCount = pp.pageCount) ∧
    (pp.freeList = [] → pp.pageCount < pp.pageCapacity →
      (pp.allocPage writeOk).1 = some pp.pageCount ∧
      (pp.allocPage writeOk).2.1.pageCount = pp.pageCount + 1 ∧
      (pp.allocPage writeOk).2.1.frame pp.pageCount = Page.create) ∧
    (∀ fid rest, pp.freeList = [] → ¬pp.pageCount < pp.pageCapacity →
      pp.lruList = fid :: rest →
      (pp.allocPage writeOk).1 = some fid ∧
      (pp.allocPage writeOk).2.1.lruList = rest ∧
      ((pp.allocPage writeOk).2.1.frame fid).assignment = none ∧
      ((pp.allocPage writeOk).2.1.frame fid).pinCount = 1 ∧
      (∃ k, (pp.frame fid).assignment = some k ∧
        lookupKey (pp.allocPage writeOk).2.1.pageMap k = none)) ∧
    (pp.freeList = [] → ¬pp.pageCount < pp.pageCapacity → pp.lruList = [] →
      pp.allocPage writeOk = (none, pp, [])) ∧
    (∀ q : PagePool, PagePool.Reachable q → q.pageCount ≤ q.pageCapacity) := by
  refine ⟨?_, ?_, ?_, ?_, ?_⟩
  · intro fid rest h
    have hmem : fid ∈ pp.freeList := by
      rw [h]
      exact List.mem_cons_self fid rest
    have hlt : fid < pp.pageCount := hinv.free_lt fid hmem
    have hfacts := (hinv.free_iff fid hlt).mp hmem
    have hclean := hinv.clean_unassigned fid hlt hfacts.2
    rw [allocPage_free h writeOk]
    refine ⟨rfl, hfacts.2, hclean, ?_, rfl, rfl⟩
    simp only [PagePool.frame_mk, ite_same_eq, ite_true, Page.addPin_pinCount]
  · intro hfree hcap
    rw [allocPage_grow hfree hcap writeOk]
    refine ⟨rfl, rfl, ?_⟩
    simp only [PagePool.frame_mk, ite_same_eq, ite_true]
  · intro fid rest hfree hcap hlru
    have hmem : fid ∈ pp.lruList := by
      rw [hlru]
      exact List.mem_cons_self fid rest
    have hlt : fid < pp.pageCount := hinv.lru_lt fid hmem
    have hfacts := (hinv.lru_iff fid hlt).mp hmem
    obtain ⟨k, hasg⟩ : ∃ k, (pp.frame fid).assignment = some k := by
      cases hx : (pp.frame fid).assignment with
      | none => exact absurd hx hfacts.2
      | some k => exact ⟨k, rfl⟩
    rw [allocPage_evict hfree hcap hlru writeOk]
    have hasg1 : ((({ pp with lruList := rest } : PagePool).setFrame fid
        Page.addPin).frame fid).assignment = some k := by
      rw [PagePool.frame_setFrame_self]
      simp only [Page.addPin_assignment]
      exact hasg
    refine ⟨rfl, ?_, ?_, ?_, ⟨k, hasg, ?_⟩⟩
    · rw [unassignPageFromStore_fst hasg1]
      rfl
    · rw [unassignPageFromStore_fst hasg1]
      simp only [PagePool.frame_mk, ite_same_eq, ite_true,
        Page.doesNotCacheStoreData_assignment]
    · rw [unassignPageFromStore_fst hasg1]
      simp only [PagePool.frame_mk, ite_same_eq, ite_true,
        Page.doesNotCacheStoreData_pinCount]
      rw [PagePool.frame_setFrame_self]
      simp only [Page.addPin_pinCount]
      have hz : ({ pp with lruList := rest } : PagePool).frame fid =
          pp.frame fid := rfl
      rw [hz]
      omega
    · rw [unassignPageFromStore_fst hasg1]
      exact lookupKey_eraseKey_self _ _
  · intro hfree hcap hlru
    exact allocPage_none hfree hcap hlru writeOk
  · intro q hq
    exact (poolInv_reachable hq).capacity

/-- Witness for C5's eviction branch at `demoPool`. -/
theorem claim5_allocPage_decision_tree_witness :
    (demoPool.allocPage true).1 = some 0 ∧
    ((demoPool.allocPage true).2.1.frame 0).pinCount = 1 := by
  have h := (claim5_allocPage_decision_tree poolInv_demoPool true).2.2.1 0 []
    rfl (by decide) rfl
  exact ⟨h.1, h.2.2.2.1⟩

/-- C6: a `StorePage` hit returns `kSuccess` with the very frame already
mapped (repeated calls on the same key return the same frame index), removes
it from the LRU list exactly when it was unpinned, adds a pin, allocates no
frame (`pageCount` unchanged), performs no store read (the event list is
empty, whatever the fetch mode), and leaves the resident map unchanged. -/
theorem claim6_hit_path {pp : PagePool} {s p fid : Nat} (hinv : PoolInv pp)
    (hlook : lookupKey pp.pageMap (s, p) = some fid) (fm : PageFetchMode)
    (readOk writeOk : Bool) :
    pp.storePage s p fm readOk writeOk =
      (Status.kSuccess, some fid, pp.pinStorePage fid, []) ∧
    ((pp.storePage s p fm readOk writeOk).2.2.1.storePage s p fm readOk
      writeOk).2.1 = some fid ∧
    ((pp.frame fid).pinCount = 0 →
      (pp.pinStorePage fid).lruList = pp.lruList.erase fid) ∧
    (0 < (pp.frame fid).pinCount →
      (pp.pinStorePage fid).lruList = pp.lruList) ∧
    fid ∉ (pp.pinStorePage fid).lruList ∧
    ((pp.pinStorePage fid).frame fid).pinCount = (pp.frame fid).pinCount + 1 ∧
    (pp.pinStorePage fid).pageCount = pp.pageCount ∧
    (pp.pinStorePage fid).pageMap = pp.pageMap := by
  have hs := hinv.map_sound _ (mem_of_lookupKey_eq_some hlook)
  have herase : (pp.frame fid).pinCount = 0 →
      (pp.pinStorePage fid).lruList = pp.lruList.erase fid := by
    intro hz
    simp only [PagePool.pinStorePage]
    rw [if_pos (by simp [hz])]
    rfl
  have hkeep : 0 < (pp.frame fid).pinCount →
      (pp.pinStorePage fid).lruList = pp.lruList := by
    intro hpos
    simp only [PagePool.pinStorePage]
    rw [if_neg (by simp only [Page.isUnpinned_iff]; omega)]
    rfl
  refine ⟨storePage_hit hlook fm readOk writeOk, ?_, herase, hkeep, ?_, ?_,
    pinStorePage_pageCount pp fid, pinStorePage_pageMap pp fid⟩
  · rw [storePage_hit hlook fm readOk writeOk]
    have hlook2 : lookupKey (pp.pinStorePage fid).pageMap (s, p) = some fid := by
      rw [pinStorePage_pageMap]
      exact hlook
    rw [show (Status.kSuccess, some fid, pp.pinStorePage fid,
      ([] : List PoolEvent)).2.2.1 = pp.pinStorePage fid from rfl,
      storePage_hit hlook2 fm readOk writeOk]
  · by_cases hz : (pp.frame fid).pinCount = 0
    · rw [herase hz]
      intro hc
      exact (hinv.lru_nodup.mem_erase_iff.mp hc).1 rfl
    · rw [hkeep (Nat.pos_of_ne_zero hz)]
      exact notMem_lru_of_pinned hinv hs.1 (Nat.pos_of_ne_zero hz)
  · exact pinStorePage_frame_pinCount_self pp fid

/-- Witness for C6 at `demoPool` with its resident key (0, 1). -/
theorem claim6_hit_path_witness :
    demoPool.storePage 0 1 PageFetchMode.kFetchPageData true true =
      (Status.kSuccess, some 0, demoPool.pinStorePage 0, []) ∧
    0 ∉ (demoPool.pinStorePage 0).lruList := by
  have h := @claim6_hit_path demoPool 0 1 0 poolInv_demoPool (by decide)
    PageFetchMode.kFetchPageData true true
  exact ⟨h.1, h.2.2.2.2.1⟩

/-- C9: destroying a pool whose total pin count is zero releases every frame
on the free list and every frame on the LRU list — with the §3 invariants
that is every frame — and never calls `WritePage`, even for dirty LRU
frames. -/
theorem claim9_destruction {pp : PagePool} (hinv : PoolInv pp)
    (hpins : pp.totalPinCount = 0) :
    (∀ fid ∈ pp.freeList, PoolEvent.releaseFrame fid ∈ pp.destroy) ∧
    (∀ fid ∈ pp.lruList, PoolEvent.releaseFrame fid ∈ pp.destroy) ∧
    (∀ fid, fid < pp.pageCount → PoolEvent.releaseFrame fid ∈ pp.destroy) ∧
    (∀ e ∈ pp.destroy, ∀ a b c, e ≠ PoolEvent.writePage a b c) := by
  refine ⟨?_, ?_, ?_, ?_⟩
  · intro fid hf
    exact List.mem_append.mpr (Or.inl (List.mem_map_of_mem _ hf))
  · intro fid hf
    exact List.mem_append.mpr (Or.inr (List.mem_map_of_mem _ hf))
  · intro fid hlt
    have hz := totalPinCount_zero hpins fid hlt
    by_cases hasg : (pp.frame fid).assignment = none
    · have hmem : fid ∈ pp.freeList := (hinv.free_iff fid hlt).mpr ⟨hz, hasg⟩
      exact List.mem_append.mpr (Or.inl (List.mem_map_of_mem _ hmem))
    · have hmem : fid ∈ pp.lruList := (hinv.lru_iff fid hlt).mpr ⟨hz, hasg⟩
      exact List.mem_append.mpr (Or.inr (List.mem_map_of_mem _ hmem))
  · intro e he a b c
    rcases List.mem_append.mp he with h2 | h2 <;>
      rcases List.mem_map.mp h2 with ⟨x, -, rfl⟩ <;>
      exact fun hc => PoolEvent.noConfusion hc

/-- Witness for C9 at `demoPool`, whose dirty LRU frame is released. -/
theorem claim9_destruction_witness :
    PoolEvent.releaseFrame 0 ∈ demoPool.destroy ∧
    (demoPool.frame 0).dirty = true := by
  have h := claim9_destruction poolInv_demoPool (by decide)
  exact ⟨h.2.2.1 0 (by decide), by decide⟩

end BerryDB
